import Mathlib

/-!
Shallow embedding of the Stellar depot / restock / CAPI-worker core
(`src/services/depots.py`, `src/services/restocks.py`,
`src/services/capi/service.py`, `src/services/capi/worker.py`,
`src/storage/carriers.py`, `src/common/...`).

Conventions:
* `datetime` values are unix seconds modelled as `Int` (`Time`).
* Python `None` is `Option.none`; fallible code (an `assert` in the source)
  returns `Option`/`Except`.
* Python sets iterated by the services are modelled as lists; `find` helpers
  return the first match, which models one fixed iteration order.
* Floating point appears in the source only as the literal `0.8` in the
  restock threshold (`delivered >= target * 0.8`) and as sheet coordinates
  that are stored but never computed with.  The threshold is modelled as the
  exact rational comparison `5 * delivered >= 4 * target`; coordinates are
  modelled with an opaque integer payload.
-/

namespace Stellar

abbrev Time := Int

/-- Field `_Market` of `common/good.py`: price, quantity and optional bracket
(`""` is modelled as `none`). -/
structure Mkt where
  price : Int := 0
  quantity : Int := 0
  bracket : Option Nat := none
deriving DecidableEq, Repr

/-- `common/good.py` `Good`: a commodity with stock and demand market data. -/
structure Good where
  name : String
  stock : Mkt
  demand : Mkt
  mean_price : Int := 0
deriving DecidableEq, Repr

/-- `utils/points/point_3d.py`: coordinates are floats in the source but are
only ever stored and compared, never computed with; the payloads are opaque
integers here. -/
structure Point3D where
  x : Int
  y : Int
  z : Int
deriving DecidableEq, Repr

/-- `common/system.py` `System`: a star system name with optional location. -/
structure System where
  name : String
  location : Option Point3D
deriving DecidableEq, Repr

/-- `common/enums/stage.py` `Stage`. -/
inductive Stage where
  | pending
  | underway
  | complete
  | aborted
deriving DecidableEq, Repr

/-- `common/enums/state.py` `State` (CAPI sync states). -/
inductive CState where
  | unlisted
  | expired
  | syncing
deriving DecidableEq, Repr

/-- `common/enums/service.py` `Service` (auth provider). -/
inductive Service where
  | frontier
  | steam
  | epic
deriving DecidableEq, Repr

/-- `common/depots/carrier.py` `Carrier` (including the `Depot` base fields). -/
structure Carrier where
  name : String
  system : System
  market : List Good
  market_id : Int
  inara_url : String
  last_update : Time
  display_name : String
  deploy_system : System
  reserve_tritium : Int
  allocated_space : Int
  owner_discord_id : Int
  active_depot : Bool
  capi_status : Option CState := none
  restock_status : Option Stage := none
deriving DecidableEq, Repr

/-- `common/depots/bridge.py` `Bridge` (the `Depot` base fields). -/
structure Bridge where
  name : String
  system : System
  market : List Good
  market_id : Int
  inara_url : String
  last_update : Time
deriving DecidableEq, Repr

/-- `Depot.tritium` property: the first good in the market named "tritium". -/
def tritium (market : List Good) : Option Good :=
  market.find? (fun g => g.name == "tritium")

/-- `common/depots/carrier.py` `stock_bracket`: quartile classification of a
tonnage against the fixed capacity 25000 (`0.75 * 25000 = 18750.0` and
`0.25 * 25000 = 6250.0` are exact). -/
def stock_bracket (amount : Int) : Nat :=
  if amount ≥ 18750 then 3
  else if amount ≥ 6250 then 2
  else if amount > 0 then 1
  else 0

/-- `common/tasks/restock.py` `Tritium`. -/
structure Tritium where
  required : Int
  initial : Int
  delivered : Int
  sell_price : Option Int
deriving DecidableEq, Repr

/-- `common/progress.py` `Progress` (`end` is a Lean keyword, named `end_`). -/
structure Progress where
  stage : Stage
  start : Time
  end_ : Option Time
deriving DecidableEq, Repr

/-- `common/tasks/restock.py` `Restock`. -/
structure Restock where
  carrier : String × String
  tritium : Tritium
  system : System
  haulers : List Int
  progress : Progress
  message : Int
deriving DecidableEq, Repr

/-- A restock task is open when its stage is neither COMPLETE nor ABORTED. -/
def isOpenTask (t : Restock) : Bool :=
  !(t.progress.stage == Stage.complete) && !(t.progress.stage == Stage.aborted)

/-- The default-filter match of `_Restocks.find(callsign=...)`
(`services/restocks.py`): same callsign, not COMPLETE, not ABORTED. -/
def openFor (callsign : String) (t : Restock) : Bool :=
  t.carrier.1 == callsign && isOpenTask t

/-- `_Restocks.find(callsign=...)` with the default filters: first open task
of the carrier. -/
def restocksFind (tasks : List Restock) (callsign : String) : Option Restock :=
  tasks.find? (openFor callsign)

/-- Replace the first element satisfying `p` by its image under `f`
(models an in-place mutation of the object returned by a `find`). -/
def updateFirst (p : α → Bool) (f : α → α) : List α → List α
  | [] => []
  | x :: xs => if p x then f x :: xs else x :: updateFirst p f xs

/-- `RestockService.restock_status` (`services/restocks.py` lines 113-124):
stage of the carrier's open task, if any. -/
def restock_status (tasks : List Restock) (c : Carrier) : Option Stage :=
  (restocksFind tasks c.name).map (fun t => t.progress.stage)

/-- `RestockService.close_restock` (`services/restocks.py` lines 229-261):
returns `none` where the source would fail its `assert`s (no open task or no
tritium good).  Discord-thread and persistence side effects are dropped;
`sell_price` is `carrier.tritium.stock.price or None`, so a zero price
becomes `none`. -/
def close_restock (c : Carrier) (tasks : List Restock) (now : Time)
    (abort : Bool := false) : Option (Carrier × List Restock) :=
  match restocksFind tasks c.name, tritium c.market with
  | some _, some g =>
    let stage := if abort then Stage.aborted else Stage.complete
    let sell := if g.stock.price = 0 then none else some g.stock.price
    some ({ c with restock_status := none },
      updateFirst (openFor c.name)
        (fun t =>
          { t with
            progress := { t.progress with stage := stage, end_ := some now },
            tritium := { t.tritium with sell_price := sell } })
        tasks)
  | _, _ => none

/-- The `Restock` record `_new_restock` constructs
(`services/restocks.py` lines 208-221), with
`required = initial = allocated_space - stock` and `delivered = 0`. -/
def creationTask (c : Carrier) (g : Good) (now : Time) (msgId : Int) :
    Restock :=
  { carrier := (c.name, c.display_name)
  , tritium := { required := c.allocated_space - g.stock.quantity
               , initial := c.allocated_space - g.stock.quantity
               , delivered := 0, sell_price := none }
  , system := c.system
  , haulers := []
  , progress := { stage := Stage.pending, start := now, end_ := none }
  , message := msgId }

/-- `RestockService._new_restock` (`services/restocks.py` lines 193-227).
`g` is the carrier's tritium good (the source re-reads `carrier.tritium`,
which yields the same value); `msgId` stands for the id of the Discord task
thread created by `write_task`. -/
def new_restock (c : Carrier) (g : Good) (tasks : List Restock) (now : Time)
    (msgId : Int) : Carrier × List Restock :=
  ({ c with restock_status := some Stage.pending },
   tasks ++ [creationTask c g now msgId])

/-- `RestockService._update_restock` (`services/restocks.py` lines 165-191):
store the recomputed `delivered` and `required` on the carrier's open task
(the source asserts the task exists; every call site guarantees it). -/
def update_restock (c : Carrier) (tasks : List Restock)
    (delivered target : Int) : List Restock :=
  updateFirst (openFor c.name)
    (fun t =>
      { t with tritium :=
          { t.tritium with delivered := delivered, required := target } })
    tasks

/-- `RestockService.try_restock` (`services/restocks.py` lines 126-163).
The close threshold `delivered >= target * 0.8` is modelled exactly as
`5 * delivered >= 4 * target`; `none` models the source's `assert restock`
failing (an open status with no open task). -/
def try_restock (c : Carrier) (tasks : List Restock) (now : Time)
    (msgId : Int) : Option (Carrier × List Restock) :=
  if !c.active_depot then some (c, tasks)
  else
    match tritium c.market with
    | none => some (c, tasks)
    | some g =>
      if g.demand.quantity > 0 then some (c, tasks)
      else
        match c.restock_status with
        | none =>
          if g.stock.quantity > c.reserve_tritium then some (c, tasks)
          else some (new_restock c g tasks now msgId)
        | some _ =>
          match restocksFind tasks c.name with
          | none => none
          | some r =>
            let raw := g.stock.quantity - (c.allocated_space - r.tritium.required)
            let target := if raw < 0 then r.tritium.required - raw else r.tritium.required
            let delivered := if raw < 0 then 0 else raw
            let tasks1 := update_restock c tasks delivered target
            if 4 * target ≤ 5 * delivered then close_restock c tasks1 now
            else some (c, tasks1)

/-! Depot service (`services/depots.py`). -/

/-- The state the depot listener acts on: the bridge and carrier collections
of `DepotService` and the restock collection of `RESTOCK_SERVICE`. -/
structure DepotsState where
  bridges : List Bridge
  carriers : List Carrier
  restocks : List Restock
deriving DecidableEq, Repr

/-- `_Bridges.find` (`services/depots.py`): first bridge with the name. -/
def bridgesFind (bs : List Bridge) (name : String) : Option Bridge :=
  bs.find? (fun b => b.name == name)

/-- The callsign filter of `_Carriers.find(callsign=...)`: an empty callsign
matches any carrier (`if callsign and depot.name != callsign: continue`). -/
def carrierMatches (callsign : String) (c : Carrier) : Bool :=
  callsign == "" || c.name == callsign

/-- `_Carriers.find(callsign=...)` (`services/depots.py`). -/
def carriersFind (cs : List Carrier) (callsign : String) : Option Carrier :=
  cs.find? (carrierMatches callsign)

/-- `update_depot` (`services/depots.py` lines 53-69) restricted to a bridge:
overwrite market, system and last_update (no restock evaluation). -/
def update_depot_bridge (b : Bridge) (sys : System) (market : List Good)
    (ts : Time) : Bridge :=
  { b with market := market, system := sys, last_update := ts }

/-- `update_depot` (`services/depots.py` lines 53-69) on a carrier: overwrite
market, system and last_update, then run `RESTOCK_SERVICE.try_restock`. -/
def update_depot_carrier (c : Carrier) (sys : System) (market : List Good)
    (ts : Time) (tasks : List Restock) (now : Time) (msgId : Int) :
    Option (Carrier × List Restock) :=
  try_restock { c with market := market, system := sys, last_update := ts }
    tasks now msgId

/-- `DepotService.listener` (`services/depots.py` lines 182-203), the
broadcast (EDDN) ingestion path.  `edsm` is the `external.edsm.system`
lookup; `none` models the `assert system_data` failing.  The final `push`
(persistence) is dropped. -/
def listener (st : DepotsState) (edsm : String → Option System)
    (station system : String) (market : List Good) (ts : Time)
    (now : Time) (msgId : Int) : Option DepotsState :=
  match bridgesFind st.bridges station with
  | some b =>
    if ts < b.last_update then some st
    else
      some { st with
        bridges := updateFirst (fun x => x.name == station)
          (fun x => update_depot_bridge x x.system market ts) st.bridges }
  | none =>
    match carriersFind st.carriers station with
    | none => some st
    | some c =>
      if ts < c.last_update then some st
      else
        match (if c.system.name ≠ system then edsm system else some c.system) with
        | none => none
        | some sd =>
          match update_depot_carrier c sd market ts st.restocks now msgId with
          | none => none
          | some (c1, tasks1) =>
            some { st with
              carriers := updateFirst (carrierMatches station) (fun _ => c1)
                st.carriers,
              restocks := tasks1 }

/-! CAPI account registry (`services/capi/service.py`). -/

/-- `common/capi.py` `CapiData`. -/
structure CapiData where
  customer_id : Int
  auth_type : Service
  commander : String
  carrier : Option String
  discord_id : Int
  access_token : Option (String × Time)
  refresh_token : String
deriving DecidableEq, Repr

/-- `_Data.find_carrier` (`services/capi/service.py` lines 33-35): first
account whose carrier link equals the callsign (`None == callsign` is
false). -/
def find_carrier (data : List CapiData) (callsign : String) : Option CapiData :=
  data.find? (fun d => d.carrier == some callsign)

/-- `CapiService.get_state` (`services/capi/service.py` lines 67-77). -/
def get_state (data : List CapiData) (callsign : String) : CState :=
  match find_carrier data callsign with
  | none => CState.unlisted
  | some d =>
    match d.access_token with
    | none => CState.expired
    | some _ => CState.syncing

/-- `CapiService.get_carriers` (`services/capi/service.py` lines 63-65):
all truthy carrier links, so `None` and the empty string are excluded. -/
def get_carriers (data : List CapiData) : List String :=
  data.filterMap (fun d =>
    match d.carrier with
    | some s => if s == "" then none else some s
    | none => none)

/-! CAPI poll worker (`services/capi/worker.py`).  The worker singleton is
constructed with `use_epic = False`, so the `State.PARTIAL` comparisons are
never evaluated (short-circuit) and are omitted here. -/

/-- `_INTERVAL = timedelta(hours=2)` in seconds. -/
def pollInterval : Int := 7200

/-- `_DELAY = timedelta(minutes=1)` in seconds. -/
def shortDelay : Int := 60

/-- `SimpleCarrier` (`services/capi/worker.py` lines 26-37). -/
structure SimpleCarrier where
  name : String
  last_update : Time
deriving DecidableEq, Repr

/-- The mutable worker data `_next_target`/`_get_external` read: the account
registry, the internal carrier collection and the external-update cache
(`CapiWorker._cache`, a dict modelled as an association list). -/
structure WorkerState where
  capiData : List CapiData
  carriers : List Carrier
  cache : List (String × Time)
deriving DecidableEq, Repr

/-- Dictionary lookup on the cache. -/
def cacheGet (cache : List (String × Time)) (k : String) : Option Time :=
  (cache.find? (fun e => e.1 == k)).map (fun e => e.2)

/-- Dictionary store on the cache (overwrite or append). -/
def cacheSet (cache : List (String × Time)) (k : String) (v : Time) :
    List (String × Time) :=
  if (cache.find? (fun e => e.1 == k)).isSome then
    updateFirst (fun e => e.1 == k) (fun _ => (k, v)) cache
  else cache ++ [(k, v)]

/-- The cache population in `CapiWorker.start` (`services/capi/worker.py`
lines 60-65): every CAPI-linked callsign is cached with the internal
carrier's `last_update`, or with the current time when no internal record
exists (`getattr(None, "last_update", now)`). -/
def start_cache (ws : WorkerState) (now : Time) : WorkerState :=
  { ws with
    cache := (get_carriers ws.capiData).foldl
      (fun acc cs =>
        cacheSet acc cs
          (match carriersFind ws.carriers cs with
           | some c => c.last_update
           | none => now))
      ws.cache }

/-- `CapiWorker._get_external` (`services/capi/worker.py` lines 119-134):
CAPI-linked callsigns without an internal record whose state is SYNCING,
timestamped from the cache or defaulting to the current time. -/
def get_external (ws : WorkerState) (now : Time) : List SimpleCarrier :=
  (get_carriers ws.capiData).filterMap (fun cs =>
    if (carriersFind ws.carriers cs).isSome then none
    else if get_state ws.capiData cs == CState.syncing then
      some ⟨cs, (cacheGet ws.cache cs).getD now⟩
    else none)

/-- A scheduling candidate: an internal `Carrier` record or an external
`SimpleCarrier`. -/
inductive Cand where
  | internal (c : Carrier)
  | external (s : SimpleCarrier)
deriving DecidableEq, Repr

/-- The `last_update` key the worker sorts candidates by. -/
def Cand.lastUpdate : Cand → Time
  | .internal c => c.last_update
  | .external s => s.last_update

/-- The callsign of a candidate. -/
def Cand.callsign : Cand → String
  | .internal c => c.name
  | .external s => s.name

/-- The candidate list built by `CapiWorker._oldest_carrier`
(`services/capi/worker.py` lines 136-153): SYNCING internal carriers
followed by the external ones. -/
def candidates (ws : WorkerState) (now : Time) : List Cand :=
  (ws.carriers.filter
      (fun c => get_state ws.capiData c.name == CState.syncing)).map Cand.internal
  ++ (get_external ws now).map Cand.external

/-- Head of a stable sort by `last_update`: the first element attaining the
minimum, which is what `carriers.sort(key=...); carriers[0]` yields
(Python sorts are stable). -/
def pickOldest : List Cand → Option Cand
  | [] => none
  | c :: cs =>
    some (cs.foldl (fun best x =>
      if x.lastUpdate < best.lastUpdate then x else best) c)

/-- `CapiWorker._oldest_carrier` (`services/capi/worker.py` lines 136-153);
`none` models the `raise ValueError` on an empty candidate list. -/
def oldest_carrier (ws : WorkerState) (now : Time) : Option Cand :=
  pickOldest (candidates ws now)

/-- The sleep computed by `CapiWorker._next_target`
(`services/capi/worker.py` lines 159-162):
`max(0, carrier.last_update + interval - now)` seconds. -/
def sleepSeconds (c : Cand) (now : Time) : Int :=
  max 0 (c.lastUpdate + pollInterval - now)

/-- How the selected candidate reads after the sleep.  An internal `Carrier`
is a mutable object aliased by the worker, so its current field values are
those now stored in the collection; a `SimpleCarrier` is rebuilt by every
`_get_external` call, so the captured value is an immutable snapshot. -/
def currentView (ws2 : WorkerState) (c : Cand) : Option Cand :=
  match c with
  | .internal ic => (carriersFind ws2.carriers ic.name).map Cand.internal
  | .external s => some (Cand.external s)

/-- The re-check `if self._oldest_carrier() == carrier` after the sleep in
`CapiWorker._next_target` (line 164), evaluated against the state after
waking. -/
def recheck (ws2 : WorkerState) (now2 : Time) (c : Cand) : Bool :=
  match oldest_carrier ws2 now2, currentView ws2 c with
  | some o, some v => o == v
  | _, _ => false

/-- One wake cycle of `CapiWorker._next_target` (lines 155-167): select the
oldest candidate from the pre-sleep state `ws1`, and after the sleep poll it
(`some`) exactly when the re-check against the post-sleep state `ws2`
passes; `none` means the loop restarts selection (or the source raised
`ValueError` on an empty candidate set). -/
def next_target_step (ws1 : WorkerState) (now1 : Time)
    (ws2 : WorkerState) (now2 : Time) : Option Cand :=
  match oldest_carrier ws1 now1 with
  | none => none
  | some c => if recheck ws2 now2 c then currentView ws2 c else none

/-! Worker failure dispatch (`services/capi/worker.py`). -/

/-- The backoff state `CapiWorker._delays`: failure count and the expiry
instant of the last delay. -/
structure Delays where
  count : Nat
  expiry : Option Time
deriving DecidableEq, Repr

/-- `CapiWorker._retry_delay` (`services/capi/worker.py` lines 92-117):
exponential backoff `5 * 4^count` capped at `3*60^2 = 10800` seconds, with a
reset to the initial 5 seconds once `1*60^2 = 3600` seconds have passed
since the stored expiry.  Returns the delay and the new backoff state. -/
def retry_delay (d : Delays) (now : Time) : Int × Delays :=
  let reset : Bool :=
    match d.expiry with
    | some t => now - t > 3600
    | none => false
  if reset then (min 5 10800, ⟨0, none⟩)
  else
    let w := min (5 * 4 ^ d.count) 10800
    (w, ⟨d.count + 1, some (now + w)⟩)

/-- The typed failures a poll attempt can raise
(`ClientConnectionError`, `EpicFail`, `CapiFail`, `RefreshFail`). -/
inductive PollFailure where
  | connection
  | epic
  | capi
  | refresh
deriving DecidableEq, Repr

/-- The `except` dispatch of `CapiWorker._worker`
(`services/capi/worker.py` lines 181-199): the sleep taken for each failure
and the resulting backoff state.  Each handler only logs, sleeps and
`continue`s, so the candidate set is untouched. -/
def failure_sleep (f : PollFailure) (d : Delays) (now : Time) : Int × Delays :=
  match f with
  | .connection => retry_delay d now
  | .epic => (shortDelay, d)
  | .capi => (pollInterval, d)
  | .refresh => (shortDelay, d)

/-! Keyword binding of the poll-success path (`services/capi/utils.py`). -/

/-- The parameter names of `DepotService.listener`
(`services/depots.py` lines 182-188), excluding `self`. -/
def listenerParams : List String :=
  ["station", "system", "market", "timestamp"]

/-- The keyword arguments `sync_carrier` passes to `DEPOT_SERVICE.listener`
(`services/capi/utils.py` lines 20-26). -/
def syncCarrierListenerArgs : List String :=
  ["station", "system", "market", "market_id", "timestamp"]

/-- Python keyword binding: a call binds only when every keyword argument
names a parameter of the callee (otherwise `TypeError` is raised). -/
def bindsKeywords (params args : List String) : Bool :=
  args.all (fun a => params.contains a)

/-! Carrier sheet persistence (`storage/carriers.py`, `utils/sheets.py`).
Sheet cells (`UNFORMATTED_VALUE`) are strings, ints, floats or bools; float
payloads are opaque integers (they are stored, never computed with). -/

/-- A sheet cell. -/
inductive Cell where
  | s (v : String)
  | i (v : Int)
  | f (v : Int)
  | b (v : Bool)
deriving DecidableEq, Repr

/-- The expected Python type of a validated column. -/
inductive CellTy where
  | str
  | int
  | float
  | bool
deriving DecidableEq, Repr

/-- One entry of a checks table: expected type, whether a blank cell is
allowed (an `int | None` union in the source) and an optional regex. -/
structure Check where
  ty : CellTy
  allowNone : Bool
  regex : Option (String → Bool)

/-- Python `str.isdigit` followed by `int(...)`, on ASCII digits: `some n`
when the string is non-empty and all digits. -/
def digitStrToNat (x : String) : Option Nat :=
  let l := x.toList
  if !l.isEmpty && l.all Char.isDigit then
    some (l.foldl (fun n c => n * 10 + (c.toNat - 48)) 0)
  else none

/-- `utils/sheets.py` `implicit_cast`: ints are silently cast when a float
is expected (`bool` being a subclass of `int` in Python, `True` casts to
`1.0`), and all-digit strings are cast when an int (or bool, a subclass of
int) is expected. -/
def implicit_cast (c : Cell) (ty : CellTy) : Cell :=
  match ty, c with
  | .float, .i v => .f v
  | .float, .b v => .f (if v then 1 else 0)
  | .int, .s v => match digitStrToNat v with | some n => .i n | none => .s v
  | .bool, .s v => match digitStrToNat v with | some n => .i n | none => .s v
  | _, _ => c

/-- Python `isinstance` against the expected type; `bool` is a subclass of
`int`, so a bool cell passes an `int` check. -/
def cellIsInstance (c : Cell) (ty : CellTy) : Bool :=
  match ty, c with
  | .str, .s _ => true
  | .int, .i _ => true
  | .int, .b _ => true
  | .float, .f _ => true
  | .bool, .b _ => true
  | _, _ => false

/-- `str(value)` as fed to `regex.match` (regexes are only attached to
string columns, so only the first branch is ever exercised). -/
def cellStr : Cell → String
  | .s v => v
  | .i v => toString v
  | .f v => toString v
  | .b v => if v then "True" else "False"

/-- `re.match` of `^[A-Z0-9]{3}-[A-Z0-9]{3}$` (MULTILINE): seven pattern
characters from the start, then end of string or a newline. -/
def idRegexOk (x : String) : Bool :=
  match x.toList with
  | a :: b :: c :: '-' :: d :: e :: f :: rest =>
    [a, b, c, d, e, f].all (fun ch => ch.isUpper || ch.isDigit) &&
      (rest.isEmpty || rest.head? == some '\n')
  | _ => false

/-- `re.match` of `^Buying|Selling|Unlisted$` (MULTILINE): the alternation
makes `Buying` and `Selling` plain prefixes while only `Unlisted` is
anchored at both ends. -/
def marketRegexOk (x : String) : Bool :=
  let l := x.toList
  "Buying".toList.isPrefixOf l || "Selling".toList.isPrefixOf l ||
    ("Unlisted".toList.isPrefixOf l &&
      (let rest := l.drop 8
       rest.isEmpty || rest.head? == some '\n'))

/-- `re.match` of the INARA url pattern `^https:\/\/inara\.cz\/station\/\d+$`
(MULTILINE). -/
def urlRegexOk (x : String) : Bool :=
  let p := "https://inara.cz/station/".toList
  let l := x.toList
  p.isPrefixOf l &&
    (let rest := l.drop p.length
     let ds := rest.takeWhile Char.isDigit
     let t := rest.drop ds.length
     !ds.isEmpty && (t.isEmpty || t.head? == some '\n'))

/-- `_CARRIER_CHECKS` (`storage/carriers.py` lines 17-35), in insertion
order. -/
def carrierChecks : List (String × Check) :=
  [ ("ID", ⟨.str, false, some idRegexOk⟩)
  , ("Name", ⟨.str, false, none⟩)
  , ("Tonnage", ⟨.int, true, none⟩)
  , ("Price", ⟨.int, true, none⟩)
  , ("Market", ⟨.str, false, some marketRegexOk⟩)
  , ("Update", ⟨.int, false, none⟩)
  , ("Current System", ⟨.str, false, none⟩)
  , ("X", ⟨.float, false, none⟩)
  , ("Y", ⟨.float, false, none⟩)
  , ("Z", ⟨.float, false, none⟩)
  , ("Reserve", ⟨.int, false, none⟩)
  , ("Allocated", ⟨.int, false, none⟩)
  , ("Deploy System", ⟨.str, false, none⟩)
  , ("Contact", ⟨.int, false, none⟩)
  , ("URL", ⟨.str, false, some urlRegexOk⟩)
  , ("Market ID", ⟨.int, false, none⟩)
  , ("Active", ⟨.bool, false, none⟩)
  ]

/-- The two exception kinds a sheet row can raise while loading: a
`ValueError` carrying its message (validation failure, caught by
`load_carriers`) and an `IndexError` (a cell access past the row's end,
which `load_carriers` does not catch). -/
inductive RowErr where
  | value (msg : String)
  | index
deriving DecidableEq

/-- `utils/sheets.py` `validate_row` (non-strict): returns the loaded
key/value pairs (`none` for an allowed blank) and the list of invalid keys.
`row[headers.index(key)]` on a row shorter than the column's position
raises `IndexError`, modelled as the `none` result; the loop stops there,
so later checks contribute nothing. -/
def validate_row (checks : List (String × Check)) (headers : List String)
    (row : List Cell) :
    Option (List (String × Option Cell) × List String) :=
  checks.foldl
    (fun acc? kc =>
      match acc? with
      | none => none
      | some acc =>
        match headers.indexOf? kc.1 with
        | none => some (acc.1, acc.2 ++ [kc.1])
        | some idx =>
          match row.get? idx with
          | none => none
          | some (Cell.s "") =>
            if kc.2.allowNone then some (acc.1 ++ [(kc.1, none)], acc.2)
            else some (acc.1, acc.2 ++ [kc.1])
          | some value =>
            let v2 := implicit_cast value kc.2.ty
            if !cellIsInstance v2 kc.2.ty then some (acc.1, acc.2 ++ [kc.1])
            else
              match kc.2.regex with
              | some rx =>
                if rx (cellStr v2) then some (acc.1 ++ [(kc.1, some v2)], acc.2)
                else some (acc.1, acc.2 ++ [kc.1])
              | none => some (acc.1 ++ [(kc.1, some v2)], acc.2))
    (some ([], []))

/-- Lookup in the loaded dictionary of `validate_row`. -/
def lookupLoaded (loaded : List (String × Option Cell)) (k : String) :
    Option (Option Cell) :=
  (loaded.find? (fun e => e.1 == k)).map (fun e => e.2)

/-- Read a validated string column (the default is unreachable on validated
data). -/
def getStrCol (loaded : List (String × Option Cell)) (k : String) : String :=
  match lookupLoaded loaded k with
  | some (some (Cell.s v)) => v
  | _ => ""

/-- Read a validated int column (a bool passes the int check and reads as
0/1, as in Python). -/
def getIntCol (loaded : List (String × Option Cell)) (k : String) : Int :=
  match lookupLoaded loaded k with
  | some (some (Cell.i v)) => v
  | some (some (Cell.b v)) => if v then 1 else 0
  | _ => 0

/-- Read a validated `int | None` column. -/
def getOptIntCol (loaded : List (String × Option Cell)) (k : String) :
    Option Int :=
  match lookupLoaded loaded k with
  | some (some (Cell.i v)) => some v
  | some (some (Cell.b v)) => some (if v then 1 else 0)
  | _ => none

/-- Read a validated bool column. -/
def getBoolCol (loaded : List (String × Option Cell)) (k : String) : Bool :=
  match lookupLoaded loaded k with
  | some (some (Cell.b v)) => v
  | _ => false

/-- Read a validated float column (opaque payload). -/
def getFloatCol (loaded : List (String × Option Cell)) (k : String) : Int :=
  match lookupLoaded loaded k with
  | some (some (Cell.f v)) => v
  | _ => 0

/-- `storage/carriers.py` `_load_market` (lines 38-85).  Error strings are
abbreviated stand-ins for the generated messages. -/
def load_market (type_ : String) (quantity price : Option Int) :
    Except String (List Good) :=
  if type_ = "Unlisted" then
    if quantity = none ∧ price = none then Except.ok []
    else Except.error "Market is Unlisted but contains tritium"
  else
    match quantity, price with
    | some q, some p =>
      Except.ok
        [{ name := "tritium"
         , stock :=
             if type_ = "Selling" then
               { price := p, quantity := q, bracket := some (stock_bracket q) }
             else {}
         , demand :=
             if type_ = "Buying" then
               { price := p, quantity := q, bracket := some (stock_bracket q) }
             else {}
         , mean_price := 0 }]
    | _, _ => Except.error "Market is missing data"

/-- `storage/carriers.py` `_load_carrier` (lines 88-146):
`Except.error (RowErr.value _)` models a raised `ValueError`,
`Except.error RowErr.index` an `IndexError` escaping `validate_row`,
`ok none` the silent skip of an invalid but inactive row.
`datetime.fromtimestamp` is modelled as the identity on unix seconds. -/
def load_carrier (headers : List String) (row : List Cell) :
    Except RowErr (Option Carrier) :=
  match validate_row carrierChecks headers row with
  | none => Except.error RowErr.index
  | some vr =>
  if vr.2.isEmpty then
    match load_market (getStrCol vr.1 "Market") (getOptIntCol vr.1 "Tonnage")
        (getOptIntCol vr.1 "Price") with
    | Except.error e =>
      if getBoolCol vr.1 "Active" then Except.error (RowErr.value e)
      else Except.ok none
    | Except.ok market =>
      let deploy_loc : Point3D :=
        ⟨getFloatCol vr.1 "X", getFloatCol vr.1 "Y", getFloatCol vr.1 "Z"⟩
      let current_loc : Option Point3D :=
        if getStrCol vr.1 "Current System" = getStrCol vr.1 "Deploy System"
        then some deploy_loc else none
      Except.ok (some
        { name := getStrCol vr.1 "ID"
        , system := ⟨getStrCol vr.1 "Current System", current_loc⟩
        , market := market
        , market_id := getIntCol vr.1 "Market ID"
        , inara_url := getStrCol vr.1 "URL"
        , last_update := getIntCol vr.1 "Update"
        , display_name := getStrCol vr.1 "Name"
        , deploy_system := ⟨getStrCol vr.1 "Deploy System", some deploy_loc⟩
        , reserve_tritium := getIntCol vr.1 "Reserve"
        , allocated_space := getIntCol vr.1 "Allocated"
        , owner_discord_id := getIntCol vr.1 "Contact"
        , active_depot := getBoolCol vr.1 "Active" })
  else
    match lookupLoaded vr.1 "Active" with
    | some (some (Cell.b false)) => Except.ok none
    | _ => Except.error (RowErr.value "Cannot load row")

/-- One iteration of the `load_carriers` loop: a raised `ValueError` is
caught and logged (collected here), an `IndexError` escapes the
`except ValueError` clause and poisons the whole load (`none`), a `None`
result is skipped, every loaded carrier is kept, in row order. -/
def loadStep (headers : List String)
    (acc : Option (List Carrier × List String)) (row : List Cell) :
    Option (List Carrier × List String) :=
  match acc with
  | none => none
  | some st =>
    match load_carrier headers row with
    | Except.error (RowErr.value e) => some (st.1, st.2 ++ [e])
    | Except.error RowErr.index => none
    | Except.ok none => some st
    | Except.ok (some c) => some (st.1 ++ [c], st.2)

/-- `storage/carriers.py` `load_carriers` (lines 149-167): the result is
the kept carriers and the logged `ValueError` messages; `none` models the
call itself raising, which happens exactly when some row raises an
uncaught `IndexError` (the loop stops at that row). -/
def load_carriers (headers : List String) (rows : List (List Cell)) :
    Option (List Carrier × List String) :=
  rows.foldl (loadStep headers) (some ([], []))

/-- Number of open restock tasks stored for a callsign. -/
def openCount (tasks : List Restock) (callsign : String) : Nat :=
  (tasks.filter (openFor callsign)).length

/-- The coherence invariant between `carrier.restock_status` and the restock
collection: no open task when the status is `None`, exactly one otherwise
(the source maintains it via `assert`s and `pull`-time resynchronisation). -/
def coherent (c : Carrier) (tasks : List Restock) : Bool :=
  match c.restock_status with
  | none => openCount tasks c.name == 0
  | some _ => openCount tasks c.name == 1

deriving instance DecidableEq for Except

/-- The carrier extraction of one loaded row (`ok (some c)` results). -/
def loadOk (headers : List String) (row : List Cell) : Option Carrier :=
  match load_carrier headers row with
  | Except.ok (some c) => some c
  | _ => none

/-- The logged-error extraction of one loaded row (caught `ValueError`
results). -/
def loadErr (headers : List String) (row : List Cell) : Option String :=
  match load_carrier headers row with
  | Except.error (RowErr.value e) => some e
  | _ => none

/-! Concrete fixtures used by witnesses and counterexamples. -/

/-- A tritium sell order with the given price and stock tonnage. -/
def tritGood (price quantity : Int) : Good :=
  { name := "tritium", stock := { price := price, quantity := quantity },
    demand := {}, mean_price := 0 }

/-- A CAPI registry with one expired and one live account. -/
def capiRegistryEx : List CapiData :=
  [ { customer_id := 1, auth_type := Service.frontier, commander := "CmdrA",
      carrier := some "ABC-123", discord_id := 10, access_token := none,
      refresh_token := "ra" }
  , { customer_id := 2, auth_type := Service.steam, commander := "CmdrB",
      carrier := some "DEF-456", discord_id := 11,
      access_token := some ("ta", 999), refresh_token := "rb" } ]

/-- Carrier A of the poll-fairness scenario (`last_update = now - 3h`). -/
def carrierA : Carrier :=
  { name := "AAA-111", system := ⟨"Sol", none⟩, market := [], market_id := 1,
    inara_url := "", last_update := -10800, display_name := "Alpha One",
    deploy_system := ⟨"Sol", none⟩, reserve_tritium := 0,
    allocated_space := 0, owner_discord_id := 1, active_depot := true }

/-- Carrier B of the poll-fairness scenario (`last_update = now - 1h`). -/
def carrierB : Carrier :=
  { name := "BBB-222", system := ⟨"Sol", none⟩, market := [], market_id := 2,
    inara_url := "", last_update := -3600, display_name := "Beta Two",
    deploy_system := ⟨"Sol", none⟩, reserve_tritium := 0,
    allocated_space := 0, owner_discord_id := 2, active_depot := true }

/-- Registry linking both fairness carriers with live tokens (SYNCING). -/
def capiAB : List CapiData :=
  [ { customer_id := 1, auth_type := Service.frontier, commander := "C1",
      carrier := some "AAA-111", discord_id := 1,
      access_token := some ("t1", 999), refresh_token := "r1" }
  , { customer_id := 2, auth_type := Service.steam, commander := "C2",
      carrier := some "BBB-222", discord_id := 2,
      access_token := some ("t2", 999), refresh_token := "r2" } ]

/-- Worker state of the fairness scenario before any poll (`now = 0`). -/
def wsAB : WorkerState := ⟨capiAB, [carrierA, carrierB], []⟩

/-- Worker state after carrier A was polled (`A.last_update = now`). -/
def wsABpolled : WorkerState :=
  ⟨capiAB, [{ carrierA with last_update := 0 }, carrierB], []⟩

/-- Registry with one CAPI-linked callsign that has no internal record. -/
def capiExtEx : List CapiData :=
  [ { customer_id := 3, auth_type := Service.frontier, commander := "C3",
      carrier := some "EXT-333", discord_id := 3,
      access_token := some ("t3", 9), refresh_token := "r3" } ]

/-- Worker state for the external-cache scenario. -/
def wsExt : WorkerState := ⟨capiExtEx, [], []⟩

/-- A healthy carrier configuration (reserve below allocated space). -/
def cNormal : Carrier :=
  { name := "ABC-123", system := ⟨"Sol", none⟩,
    market := [tritGood 10 400], market_id := 7, inara_url := "",
    last_update := 0, display_name := "Foo", deploy_system := ⟨"Sol", none⟩,
    reserve_tritium := 5000, allocated_space := 20000,
    owner_discord_id := 9, active_depot := true }

/-- `cNormal` after `try_restock` opened its task. -/
def cNormalAfter : Carrier :=
  { cNormal with restock_status := some Stage.pending }

/-- The task `try_restock` opens for `cNormal` (at time 10, message 77). -/
def taskNormal : Restock :=
  { carrier := ("ABC-123", "Foo")
  , tritium := { required := 19600, initial := 19600, delivered := 0,
                 sell_price := none }
  , system := ⟨"Sol", none⟩, haulers := []
  , progress := { stage := Stage.pending, start := 10, end_ := none }
  , message := 77 }

/-- The open-task state for a consumption-during-restock scenario: stock has
dropped to 300, below the 400 the open task was computed from. -/
def cOpenDrop : Carrier :=
  { cNormal with
    market := [tritGood 10 300],
    restock_status := some Stage.pending }

/-- The open task of `cOpenDrop` (opened when stock was 400). -/
def taskOpenDrop : Restock :=
  { carrier := ("ABC-123", "Foo")
  , tritium := { required := 19600, initial := 19600, delivered := 0,
                 sell_price := none }
  , system := ⟨"Sol", none⟩, haulers := []
  , progress := { stage := Stage.pending, start := 10, end_ := none }
  , message := 77 }

/-- A degenerate but loadable carrier: its reserve (5000) is not below its
allocated space (3000) and its stock (4000) exceeds the allocated space, so
a task opens with a non-positive `required`. -/
def cDegen : Carrier :=
  { name := "ABC-123", system := ⟨"Sol", none⟩,
    market := [tritGood 5 4000], market_id := 7, inara_url := "",
    last_update := 0, display_name := "Foo", deploy_system := ⟨"Sol", none⟩,
    reserve_tritium := 5000, allocated_space := 3000,
    owner_discord_id := 9, active_depot := true }

/-- `cDegen` after the first `try_restock` call. -/
def cDegenAfter1 : Carrier := { cDegen with restock_status := some Stage.pending }

/-- The task the first call opens for `cDegen` (`required = -1000`, already
at the 80% threshold). -/
def taskDegen1 : Restock :=
  { carrier := ("ABC-123", "Foo")
  , tritium := { required := -1000, initial := -1000, delivered := 0,
                 sell_price := none }
  , system := ⟨"Sol", none⟩, haulers := []
  , progress := { stage := Stage.pending, start := 10, end_ := none }
  , message := 77 }

/-- `cDegen` after the second call closed the task. -/
def cDegenAfter2 : Carrier := { cDegen with restock_status := none }

/-- The task after the second call: stage, end and sell price changed. -/
def taskDegen2 : Restock :=
  { carrier := ("ABC-123", "Foo")
  , tritium := { required := -1000, initial := -1000, delivered := 0,
                 sell_price := some 5 }
  , system := ⟨"Sol", none⟩, haulers := []
  , progress := { stage := Stage.complete, start := 10, end_ := some 20 }
  , message := 77 }

/-- A bridge depot stored in system "Alpha" with `last_update = 100`. -/
def bridgeHub : Bridge :=
  { name := "HUB", system := ⟨"Alpha", none⟩, market := [], market_id := 5,
    inara_url := "", last_update := 100 }

/-- A depot state holding only `bridgeHub`. -/
def stBridge : DepotsState := ⟨[bridgeHub], [], []⟩

/-- An EDSM oracle that resolves every system name (to that name). -/
def edsmName : String → Option System := fun s => some ⟨s, none⟩

/-- The carrier sheet headers, in sheet column order. -/
def sheetHeaders : List String :=
  ["ID", "Name", "Tonnage", "Price", "Market", "Update", "Current System",
   "X", "Y", "Z", "Reserve", "Allocated", "Deploy System", "Contact", "URL",
   "Market ID", "Active"]

/-- A row passing every schema/type/regex check. -/
def goodRow : List Cell :=
  [.s "ABC-123", .s "Foo", .i 100, .i 5, .s "Selling", .i 1000, .s "Sol",
   .f 1, .f 2, .f 3, .i 500, .i 2000, .s "Sol", .i 42,
   .s "https://inara.cz/station/123", .i 99, .b true]

/-- The carrier entity `goodRow` loads to. -/
def carrierGoodRow : Carrier :=
  { name := "ABC-123", system := ⟨"Sol", some ⟨1, 2, 3⟩⟩,
    market := [{ name := "tritium",
                 stock := { price := 5, quantity := 100, bracket := some 1 },
                 demand := {}, mean_price := 0 }],
    market_id := 99, inara_url := "https://inara.cz/station/123",
    last_update := 1000, display_name := "Foo",
    deploy_system := ⟨"Sol", some ⟨1, 2, 3⟩⟩, reserve_tritium := 500,
    allocated_space := 2000, owner_discord_id := 42, active_depot := true }

/-- An active row whose ID fails the callsign regex. -/
def badRow : List Cell :=
  [.s "bad", .s "Foo", .i 100, .i 5, .s "Selling", .i 1000, .s "Sol",
   .f 1, .f 2, .f 3, .i 500, .i 2000, .s "Sol", .i 42,
   .s "https://inara.cz/station/123", .i 99, .b true]

/-- A ragged row holding only its first cell: reading the `Name` column
(position 1) raises `IndexError`. -/
def shortRow : List Cell := [.s "XYZ-789"]

/-! Helper lemmas about `updateFirst`, `List.find?` and counting. -/

theorem updateFirst_of_find?_none {α : Type} (p : α → Bool) (f : α → α) :
    ∀ l : List α, l.find? p = none → updateFirst p f l = l := by
  intro l
  induction l with
  | nil => intro _; rfl
  | cons x xs ih =>
    intro h
    rw [List.find?_cons] at h
    by_cases hx : p x
    · simp [hx] at h
    · simp only [hx, Bool.false_eq_true, if_false, if_neg] at h
      simp [updateFirst, hx, ih h]

theorem find?_updateFirst_self {α : Type} (p : α → Bool) (f : α → α) :
    ∀ (l : List α) (b : α), l.find? p = some b → p (f b) = true →
      (updateFirst p f l).find? p = some (f b) := by
  intro l
  induction l with
  | nil => intro b h; simp [List.find?] at h
  | cons x xs ih =>
    intro b h hfb
    rw [List.find?_cons] at h
    by_cases hx : p x
    · simp [hx] at h
      subst h
      simp [updateFirst, hx, List.find?_cons, hfb]
    · simp [hx] at h
      simp [updateFirst, hx, List.find?_cons, ih b h hfb]

theorem mem_updateFirst_of_find? {α : Type} (p : α → Bool) (f : α → α) :
    ∀ (l : List α) (b : α), l.find? p = some b → f b ∈ updateFirst p f l := by
  intro l
  induction l with
  | nil => intro b h; simp [List.find?] at h
  | cons x xs ih =>
    intro b h
    rw [List.find?_cons] at h
    by_cases hx : p x
    · simp [hx] at h
      subst h
      simp [updateFirst, hx]
    · simp [hx] at h
      simp [updateFirst, hx]
      exact Or.inr (ih b h)

theorem mem_updateFirst_cases {α : Type} (p : α → Bool) (f : α → α) :
    ∀ (l : List α) (b x : α), l.find? p = some b → x ∈ updateFirst p f l →
      x ∈ l ∨ x = f b := by
  intro l
  induction l with
  | nil => intro b x h; simp [List.find?] at h
  | cons y ys ih =>
    intro b x h hx
    rw [List.find?_cons] at h
    by_cases hy : p y
    · simp [hy] at h
      subst h
      simp [updateFirst, hy] at hx
      rcases hx with hx | hx
      · exact Or.inr hx
      · exact Or.inl (List.mem_cons_of_mem _ hx)
    · simp [hy] at h
      simp [updateFirst, hy] at hx
      rcases hx with hx | hx
      · exact Or.inl (by simp [hx])
      · rcases ih b x h hx with h1 | h1
        · exact Or.inl (List.mem_cons_of_mem _ h1)
        · exact Or.inr h1

theorem find?_append_of_none {α : Type} (p : α → Bool) :
    ∀ (l1 l2 : List α), l1.find? p = none →
      (l1 ++ l2).find? p = l2.find? p := by
  intro l1
  induction l1 with
  | nil => intro l2 _; rfl
  | cons x xs ih =>
    intro l2 h
    rw [List.find?_cons] at h
    by_cases hx : p x
    · simp [hx] at h
    · simp only [hx, Bool.false_eq_true, if_false, if_neg] at h
      simp [List.find?_cons, hx, ih l2 h]

theorem updateFirst_id_of_fix {α : Type} (p : α → Bool) (f : α → α) :
    ∀ (l : List α) (b : α), l.find? p = some b → f b = b →
      updateFirst p f l = l := by
  intro l
  induction l with
  | nil => intro b h; simp [List.find?] at h
  | cons x xs ih =>
    intro b h hfb
    rw [List.find?_cons] at h
    by_cases hx : p x
    · simp [hx] at h
      subst h
      simp [updateFirst, hx, hfb]
    · simp [hx] at h
      simp [updateFirst, hx, ih b h hfb]

theorem length_filter_updateFirst_pres {α : Type} (p : α → Bool) (f : α → α)
    (hf : ∀ x, p (f x) = p x) :
    ∀ l : List α, ((updateFirst p f l).filter p).length = (l.filter p).length := by
  intro l
  induction l with
  | nil => rfl
  | cons x xs ih =>
    by_cases hx : p x
    · simp [updateFirst, hx, List.filter_cons, hf]
    · simp [updateFirst, hx, List.filter_cons, ih]

theorem length_filter_updateFirst_kills {α : Type} (p : α → Bool) (f : α → α)
    (hf : ∀ x, p (f x) = false) :
    ∀ (l : List α) (b : α), l.find? p = some b →
      ((updateFirst p f l).filter p).length + 1 = (l.filter p).length := by
  intro l
  induction l with
  | nil => intro b h; simp [List.find?] at h
  | cons x xs ih =>
    intro b h
    rw [List.find?_cons] at h
    by_cases hx : p x
    · simp [updateFirst, hx, List.filter_cons, hf]
    · simp [hx] at h
      simp [updateFirst, hx, List.filter_cons, ih b h]

theorem mem_updateFirst_of_not_p {α : Type} (p : α → Bool) (f : α → α) :
    ∀ (l : List α) (x : α), x ∈ l → p x = false → x ∈ updateFirst p f l := by
  intro l
  induction l with
  | nil => intro x h; simp at h
  | cons y ys ih =>
    intro x hx hpx
    by_cases hy : p y
    · rcases List.mem_cons.mp hx with h1 | h1
      · subst h1; rw [hpx] at hy; exact absurd hy (by simp)
      · simp [updateFirst, hy]
        exact Or.inr h1
    · rcases List.mem_cons.mp hx with h1 | h1
      · simp [updateFirst, hy, h1]
      · simp [updateFirst, hy]
        exact Or.inr (ih x h1 hpx)

/-! Branch equations for `try_restock` and `close_restock`. -/

theorem try_restock_inactive (c : Carrier) (tasks : List Restock) (now : Time)
    (msgId : Int) (hact : c.active_depot = false) :
    try_restock c tasks now msgId = some (c, tasks) := by
  unfold try_restock
  rw [hact]
  rfl

theorem try_restock_no_tritium (c : Carrier) (tasks : List Restock)
    (now : Time) (msgId : Int) (hact : c.active_depot = true)
    (htrit : tritium c.market = none) :
    try_restock c tasks now msgId = some (c, tasks) := by
  unfold try_restock
  rw [hact, htrit]
  rfl

theorem try_restock_buying (c : Carrier) (tasks : List Restock) (now : Time)
    (msgId : Int) (g : Good) (hact : c.active_depot = true)
    (htrit : tritium c.market = some g) (hdem : g.demand.quantity > 0) :
    try_restock c tasks now msgId = some (c, tasks) := by
  unfold try_restock
  rw [hact, htrit]
  simp only [Bool.not_true, Bool.false_eq_true, if_false]
  rw [if_pos hdem]

theorem try_restock_healthy (c : Carrier) (tasks : List Restock) (now : Time)
    (msgId : Int) (g : Good) (hact : c.active_depot = true)
    (htrit : tritium c.market = some g) (hdem : ¬g.demand.quantity > 0)
    (hst : c.restock_status = none)
    (hq : g.stock.quantity > c.reserve_tritium) :
    try_restock c tasks now msgId = some (c, tasks) := by
  unfold try_restock
  rw [hact, htrit]
  simp only [Bool.not_true, Bool.false_eq_true, if_false]
  rw [if_neg hdem, hst]
  simp only [if_pos hq]

theorem try_restock_creates (c : Carrier) (tasks : List Restock) (now : Time)
    (msgId : Int) (g : Good) (hact : c.active_depot = true)
    (htrit : tritium c.market = some g) (hdem : ¬g.demand.quantity > 0)
    (hst : c.restock_status = none)
    (hq : ¬g.stock.quantity > c.reserve_tritium) :
    try_restock c tasks now msgId = some (new_restock c g tasks now msgId) := by
  unfold try_restock
  rw [hact, htrit]
  simp only [Bool.not_true, Bool.false_eq_true, if_false]
  rw [if_neg hdem, hst]
  simp only [if_neg hq]

theorem try_restock_open_missing (c : Carrier) (tasks : List Restock)
    (now : Time) (msgId : Int) (g : Good) (st : Stage)
    (hact : c.active_depot = true) (htrit : tritium c.market = some g)
    (hdem : ¬g.demand.quantity > 0) (hst : c.restock_status = some st)
    (hr : restocksFind tasks c.name = none) :
    try_restock c tasks now msgId = none := by
  unfold try_restock
  rw [hact, htrit]
  simp only [Bool.not_true, Bool.false_eq_true, if_false]
  rw [if_neg hdem, hst, hr]

theorem try_restock_open (c : Carrier) (tasks : List Restock) (now : Time)
    (msgId : Int) (g : Good) (st : Stage) (r : Restock)
    (hact : c.active_depot = true) (htrit : tritium c.market = some g)
    (hdem : ¬g.demand.quantity > 0) (hst : c.restock_status = some st)
    (hr : restocksFind tasks c.name = some r) (raw target delivered : Int)
    (hraw : raw = g.stock.quantity - (c.allocated_space - r.tritium.required))
    (htarget : target = if raw < 0 then r.tritium.required - raw
      else r.tritium.required)
    (hdel : delivered = if raw < 0 then 0 else raw) :
    try_restock c tasks now msgId =
      (if 4 * target ≤ 5 * delivered then
        close_restock c (update_restock c tasks delivered target) now
      else some (c, update_restock c tasks delivered target)) := by
  subst hraw htarget hdel
  unfold try_restock
  rw [hact, htrit]
  simp only [Bool.not_true, Bool.false_eq_true, if_false]
  rw [if_neg hdem, hst, hr]

theorem close_restock_carrier (c : Carrier) (tasks : List Restock)
    (now : Time) (abort : Bool) (c1 : Carrier) (t1 : List Restock)
    (h : close_restock c tasks now abort = some (c1, t1)) :
    c1 = { c with restock_status := none } := by
  unfold close_restock at h
  split at h
  · injection h with h1
    injection h1 with h2 h3
    exact h2.symm
  · cases h

/-- Fields of the carrier other than `restock_status` are never touched by
`try_restock`. -/
theorem try_restock_preserves (c : Carrier) (tasks : List Restock) (now : Time)
    (msgId : Int) (c1 : Carrier) (t1 : List Restock)
    (h : try_restock c tasks now msgId = some (c1, t1)) :
    c1.name = c.name ∧ c1.market = c.market ∧ c1.system = c.system ∧
      c1.last_update = c.last_update ∧ c1.active_depot = c.active_depot ∧
      c1.display_name = c.display_name ∧
      c1.reserve_tritium = c.reserve_tritium ∧
      c1.allocated_space = c.allocated_space := by
  unfold try_restock new_restock at h
  split at h
  · injection h with h1
    injection h1 with h2 h3
    subst h2
    exact ⟨rfl, rfl, rfl, rfl, rfl, rfl, rfl, rfl⟩
  · split at h
    · injection h with h1
      injection h1 with h2 h3
      subst h2
      exact ⟨rfl, rfl, rfl, rfl, rfl, rfl, rfl, rfl⟩
    · split at h
      · injection h with h1
        injection h1 with h2 h3
        subst h2
        exact ⟨rfl, rfl, rfl, rfl, rfl, rfl, rfl, rfl⟩
      · split at h
        · split at h
          · injection h with h1
            injection h1 with h2 h3
            subst h2
            exact ⟨rfl, rfl, rfl, rfl, rfl, rfl, rfl, rfl⟩
          · injection h with h1
            injection h1 with h2 h3
            subst h2
            exact ⟨rfl, rfl, rfl, rfl, rfl, rfl, rfl, rfl⟩
        · split at h
          · cases h
          · dsimp only [] at h
            split at h <;> split at h <;>
              first
                | (have hc := close_restock_carrier _ _ _ _ _ _ h
                   subst hc
                   exact ⟨rfl, rfl, rfl, rfl, rfl, rfl, rfl, rfl⟩)
                | (injection h with h1
                   injection h1 with h2 h3
                   subst h2
                   exact ⟨rfl, rfl, rfl, rfl, rfl, rfl, rfl, rfl⟩)

/-! Claim C8: account state derivation. -/

/-- C8: for every callsign and every state of the account registry,
`get_state` returns UNLISTED when no stored account's carrier link equals
the callsign, EXPIRED when the account found for the callsign has a null
access token, and SYNCING in every other case. -/
theorem claim_C8_get_state (data : List CapiData) (callsign : String) :
    ((∀ d ∈ data, d.carrier ≠ some callsign) →
        get_state data callsign = CState.unlisted)
    ∧ (∀ d, find_carrier data callsign = some d → d.access_token = none →
        get_state data callsign = CState.expired)
    ∧ (∀ d tok, find_carrier data callsign = some d →
        d.access_token = some tok →
        get_state data callsign = CState.syncing) := by
  refine ⟨?_, ?_, ?_⟩
  · intro hnone
    have hfind : find_carrier data callsign = none := by
      apply List.find?_eq_none.mpr
      intro d hd
      simp [hnone d hd]
    unfold get_state
    rw [hfind]
  · intro d hfind htok
    simp [get_state, hfind, htok]
  · intro d tok hfind htok
    simp [get_state, hfind, htok]

/-- Witness for C8 on a concrete registry. -/
theorem claim_C8_get_state_witness :
    get_state capiRegistryEx "ZZZ-999" = CState.unlisted
    ∧ get_state capiRegistryEx "ABC-123" = CState.expired
    ∧ get_state capiRegistryEx "DEF-456" = CState.syncing :=
  ⟨(claim_C8_get_state capiRegistryEx "ZZZ-999").1 (by decide),
   (claim_C8_get_state capiRegistryEx "ABC-123").2.1
     { customer_id := 1, auth_type := Service.frontier, commander := "CmdrA",
       carrier := some "ABC-123", discord_id := 10, access_token := none,
       refresh_token := "ra" } (by decide) rfl,
   (claim_C8_get_state capiRegistryEx "DEF-456").2.2
     { customer_id := 2, auth_type := Service.steam, commander := "CmdrB",
       carrier := some "DEF-456", discord_id := 11,
       access_token := some ("ta", 999), refresh_token := "rb" }
     ("ta", 999) (by decide) rfl⟩

/-! Claim C6: the poll-success path.  `sync_carrier`
(`services/capi/utils.py` lines 20-26) invokes `DEPOT_SERVICE.listener` with
a `market_id` keyword argument, but `DepotService.listener`
(`services/depots.py` lines 182-188) has no such parameter, so every
successful poll raises `TypeError` before any depot write. -/

/-- C6: the keyword arguments `sync_carrier` passes to the depot listener do
not bind against the listener's parameters — `market_id` is passed but not
accepted — so the poll-success reconciliation call cannot execute. -/
theorem claim_C6_market_id_binding :
    bindsKeywords listenerParams syncCarrierListenerArgs = false
    ∧ syncCarrierListenerArgs.contains "market_id" = true
    ∧ listenerParams.contains "market_id" = false := by decide

/-! Claim C7: CapiFail handling in the worker. -/

/-- C7 counterexample: on a fresh backoff state the internal-CAPI failure
handler sleeps the fixed 2-hour poll interval (7200 s) while the
connection-error retry delay would be 5 s, so the CapiFail sleep is not the
exponential-backoff retry delay the claim describes. -/
theorem claim_C7_counterexample :
    failure_sleep PollFailure.capi ⟨0, none⟩ 0 = (7200, ⟨0, none⟩)
    ∧ failure_sleep PollFailure.connection ⟨0, none⟩ 0 = (5, ⟨1, some 5⟩)
    ∧ (failure_sleep PollFailure.capi ⟨0, none⟩ 0).1 ≠
        (failure_sleep PollFailure.connection ⟨0, none⟩ 0).1 := by decide

/-- C7 amended: an upstream internal-CAPI failure makes the worker sleep the
fixed whole-worker poll interval (2 hours) with the backoff state untouched
— a whole-worker delay rather than a candidate-specific skip, but not the
exponential-backoff-capped retry delay, which only connection errors use —
and no candidate state is modified, so the candidate remains eligible for
the next selection. -/
theorem claim_C7_amended (d : Delays) (now : Time) :
    failure_sleep PollFailure.capi d now = (pollInterval, d)
    ∧ pollInterval = 7200
    ∧ failure_sleep PollFailure.connection d now = retry_delay d now
    ∧ ∃ d0 n0, (failure_sleep PollFailure.capi d0 n0).1 ≠
        (retry_delay d0 n0).1 :=
  ⟨rfl, rfl, rfl, ⟨0, none⟩, 0, by decide⟩

/-! Cache lemmas for the worker start-up behaviour. -/

theorem cacheGet_cacheSet_self (cache : List (String × Time)) (k : String)
    (v : Time) : cacheGet (cacheSet cache k v) k = some v := by
  unfold cacheSet
  by_cases hf : ((cache.find? (fun e => e.1 == k)).isSome : Prop)
  · rw [if_pos hf]
    obtain ⟨e, he⟩ := Option.isSome_iff_exists.mp hf
    unfold cacheGet
    rw [find?_updateFirst_self (fun e => e.1 == k) (fun _ => (k, v)) cache e he
      (by simp)]
    rfl
  · rw [if_neg hf]
    unfold cacheGet
    rw [find?_append_of_none _ _ _
      (Option.not_isSome_iff_eq_none.mp hf)]
    simp [List.find?]

theorem cacheGet_cacheSet_other (cache : List (String × Time)) (k k' : String)
    (v : Time) (h : k' ≠ k) :
    cacheGet (cacheSet cache k v) k' = cacheGet cache k' := by
  unfold cacheSet
  by_cases hf : ((cache.find? (fun e => e.1 == k)).isSome : Prop)
  · rw [if_pos hf]
    unfold cacheGet
    clear hf
    have hkk : (k == k') = false := by
      simp only [beq_eq_false_iff_ne, ne_eq]
      exact fun hc => h hc.symm
    induction cache with
    | nil => rfl
    | cons e es ih =>
      by_cases he : e.1 == k
      · have hek : e.1 = k := by simpa using he
        have he1 : (e.1 == k') = false := by
          rw [hek]
          exact hkk
        simp [updateFirst, he, List.find?_cons, he1, hkk]
      · simp only [updateFirst, he, Bool.false_eq_true, if_false, if_neg]
        rw [List.find?_cons, List.find?_cons]
        by_cases he2 : e.1 == k'
        · simp [he2]
        · simp only [he2, Bool.false_eq_true, if_false, if_neg]
          exact ih
  · rw [if_neg hf]
    unfold cacheGet
    rw [List.find?_append]
    have hone : (([(k, v)] : List (String × Time)).find? (fun e => e.1 == k'))
        = none := by
      have hkk : (k == k') = false := by
        simp only [beq_eq_false_iff_ne, ne_eq]
        exact fun hc => h hc.symm
      simp [List.find?, hkk]
    rw [hone]
    simp

theorem foldl_cacheSet_not_mem (v : String → Time) :
    ∀ (l : List String) (cache : List (String × Time)) (cs : String),
      cs ∉ l →
      cacheGet (l.foldl (fun acc k => cacheSet acc k (v k)) cache) cs =
        cacheGet cache cs := by
  intro l
  induction l with
  | nil => intro cache cs _; rfl
  | cons k rest ih =>
    intro cache cs h
    have h1 : cs ≠ k := fun hc => h (by simp [hc])
    have h2 : cs ∉ rest := fun hc => h (List.mem_cons_of_mem _ hc)
    simp only [List.foldl_cons]
    rw [ih _ cs h2, cacheGet_cacheSet_other _ _ _ _ h1]

theorem foldl_cacheSet_mem (v : String → Time) :
    ∀ (l : List String) (cache : List (String × Time)) (cs : String),
      cs ∈ l →
      cacheGet (l.foldl (fun acc k => cacheSet acc k (v k)) cache) cs =
        some (v cs) := by
  intro l
  induction l with
  | nil => intro cache cs h; simp at h
  | cons k rest ih =>
    intro cache cs h
    by_cases hr : cs ∈ rest
    · simp only [List.foldl_cons]
      exact ih _ cs hr
    · have hk : cs = k := by
        rcases List.mem_cons.mp h with h1 | h1
        · exact h1
        · exact absurd h1 hr
      subst hk
      simp only [List.foldl_cons]
      rw [foldl_cacheSet_not_mem v rest _ cs hr, cacheGet_cacheSet_self]

/-! Claim C10: external carriers default to the startup/current time. -/

/-- C10: at worker start every CAPI-linked callsign without an internal
Carrier record is cached with the current time; `_get_external` also uses
the current time when the cache has no entry for such a callsign; and for
any selected candidate the wake instant is at least `last_update` plus the
2-hour poll interval, so an external carrier timestamped with the startup
time cannot be polled until a full interval after startup. -/
theorem claim_C10_external_cache (ws : WorkerState) (now : Time) :
    (∀ cs, cs ∈ get_carriers ws.capiData →
        carriersFind ws.carriers cs = none →
        cacheGet (start_cache ws now).cache cs = some now)
    ∧ (∀ cs, cs ∈ get_carriers ws.capiData →
        carriersFind ws.carriers cs = none →
        get_state ws.capiData cs = CState.syncing →
        cacheGet ws.cache cs = none →
        Cand.external ⟨cs, now⟩ ∈ candidates ws now)
    ∧ (∀ c : Cand, now + sleepSeconds c now ≥ c.lastUpdate + pollInterval) := by
  refine ⟨?_, ?_, ?_⟩
  · intro cs hmem hfind
    unfold start_cache
    have := foldl_cacheSet_mem
      (fun k => match carriersFind ws.carriers k with
        | some c => c.last_update
        | none => now)
      (get_carriers ws.capiData) ws.cache cs hmem
    simp only [] at this ⊢
    rw [this, hfind]
  · intro cs hmem hfind hstate hcache
    unfold candidates
    apply List.mem_append_right
    apply List.mem_map_of_mem
    unfold get_external
    apply List.mem_filterMap.mpr
    refine ⟨cs, hmem, ?_⟩
    rw [hfind]
    simp [hstate, hcache]
  · intro c
    unfold sleepSeconds pollInterval
    rcases le_total 0 (c.lastUpdate + 7200 - now) with hle | hle
    · rw [max_eq_right hle]
      linarith
    · rw [max_eq_left hle]
      linarith

/-- Witness for C10 on a registry with one external callsign. -/
theorem claim_C10_external_cache_witness :
    cacheGet (start_cache wsExt 1000).cache "EXT-333" = some 1000
    ∧ Cand.external ⟨"EXT-333", 1000⟩ ∈ candidates wsExt 1000
    ∧ (1000 : Int) + sleepSeconds (Cand.external ⟨"EXT-333", 1000⟩) 1000 ≥
        1000 + 7200 :=
  ⟨(claim_C10_external_cache wsExt 1000).1 "EXT-333" (by decide) rfl,
   (claim_C10_external_cache wsExt 1000).2.1 "EXT-333" (by decide) rfl
     (by decide) rfl,
   (claim_C10_external_cache wsExt 1000).2.2 (Cand.external ⟨"EXT-333", 1000⟩)⟩

/-! Minimality of `pickOldest`. -/

theorem foldl_pickOldest_cases :
    ∀ (cs : List Cand) (c0 : Cand),
      (cs.foldl (fun best x =>
        if x.lastUpdate < best.lastUpdate then x else best) c0) = c0 ∨
      (cs.foldl (fun best x =>
        if x.lastUpdate < best.lastUpdate then x else best) c0) ∈ cs := by
  intro cs
  induction cs with
  | nil => intro c0; exact Or.inl rfl
  | cons x xs ih =>
    intro c0
    simp only [List.foldl_cons]
    by_cases hx : x.lastUpdate < c0.lastUpdate
    · rw [if_pos hx]
      rcases ih x with h | h
      · exact Or.inr (by simp [h])
      · exact Or.inr (List.mem_cons_of_mem _ h)
    · rw [if_neg hx]
      rcases ih c0 with h | h
      · exact Or.inl h
      · exact Or.inr (List.mem_cons_of_mem _ h)

theorem foldl_pickOldest_le :
    ∀ (cs : List Cand) (c0 : Cand),
      (cs.foldl (fun best x =>
        if x.lastUpdate < best.lastUpdate then x else best) c0).lastUpdate ≤
          c0.lastUpdate ∧
      ∀ d ∈ cs,
        (cs.foldl (fun best x =>
          if x.lastUpdate < best.lastUpdate then x else best) c0).lastUpdate ≤
            d.lastUpdate := by
  intro cs
  induction cs with
  | nil =>
    intro c0
    exact ⟨le_refl _, by intro d hd; simp at hd⟩
  | cons x xs ih =>
    intro c0
    simp only [List.foldl_cons]
    by_cases hx : x.lastUpdate < c0.lastUpdate
    · rw [if_pos hx]
      refine ⟨le_trans (ih x).1 (le_of_lt hx), ?_⟩
      intro d hd
      rcases List.mem_cons.mp hd with h | h
      · rw [h]; exact (ih x).1
      · exact (ih x).2 d h
    · rw [if_neg hx]
      refine ⟨(ih c0).1, ?_⟩
      intro d hd
      rcases List.mem_cons.mp hd with h | h
      · rw [h]
        exact le_trans (ih c0).1 (not_lt.mp hx)
      · exact (ih c0).2 d h

theorem pickOldest_spec (l : List Cand) (c : Cand) (h : pickOldest l = some c) :
    c ∈ l ∧ ∀ d ∈ l, c.lastUpdate ≤ d.lastUpdate := by
  match l with
  | [] => simp [pickOldest] at h
  | c0 :: cs =>
    unfold pickOldest at h
    injection h with h1
    constructor
    · rcases foldl_pickOldest_cases cs c0 with h2 | h2
      · rw [← h1, h2]; simp
      · rw [← h1]; exact List.mem_cons_of_mem _ h2
    · intro d hd
      rcases List.mem_cons.mp hd with h2 | h2
      · rw [← h1, h2]
        exact (foldl_pickOldest_le cs c0).1
      · rw [← h1]
        exact (foldl_pickOldest_le cs c0).2 d h2

/-! Claim C5: poll fairness of the worker scheduler. -/

/-- C5: the worker selects the candidate (SYNCING internal carriers plus
externally cached callsigns) with minimal `last_update`; it sleeps exactly
until that candidate's `last_update` plus the 2-hour interval (or not at all
when that instant has passed); after waking it polls a candidate only if
that candidate is the globally stalest in the post-sleep state, and restarts
selection when the re-check fails; in particular carrier A (3 h stale) is
selected and polled before carrier B (1 h stale), and after A is polled B is
selected. -/
theorem claim_C5_poll_fairness :
    (∀ (ws : WorkerState) (now : Time) (c : Cand),
        oldest_carrier ws now = some c →
          c ∈ candidates ws now ∧
            ∀ d ∈ candidates ws now, c.lastUpdate ≤ d.lastUpdate)
    ∧ (∀ (c : Cand) (now : Time),
        now + sleepSeconds c now = max now (c.lastUpdate + pollInterval))
    ∧ (∀ (ws1 : WorkerState) (now1 : Time) (ws2 : WorkerState) (now2 : Time)
        (v : Cand), next_target_step ws1 now1 ws2 now2 = some v →
          v ∈ candidates ws2 now2 ∧
            ∀ d ∈ candidates ws2 now2, v.lastUpdate ≤ d.lastUpdate)
    ∧ (∀ (ws1 : WorkerState) (now1 : Time) (ws2 : WorkerState) (now2 : Time)
        (c : Cand), oldest_carrier ws1 now1 = some c →
          recheck ws2 now2 c = false →
          next_target_step ws1 now1 ws2 now2 = none)
    ∧ (oldest_carrier wsAB 0 = some (Cand.internal carrierA)
        ∧ next_target_step wsAB 0 wsAB 0 = some (Cand.internal carrierA)
        ∧ oldest_carrier wsABpolled 0 = some (Cand.internal carrierB)) := by
  refine ⟨?_, ?_, ?_, ?_, by decide, by decide, by decide⟩
  · intro ws now c h
    exact pickOldest_spec _ c h
  · intro c now
    unfold sleepSeconds
    rcases le_total now (c.lastUpdate + pollInterval) with hle | hle
    · rw [max_eq_right hle, max_eq_right (by linarith)]
      ring
    · rw [max_eq_left hle, max_eq_left (by linarith)]
      ring
  · intro ws1 now1 ws2 now2 v h
    unfold next_target_step at h
    match h1 : oldest_carrier ws1 now1 with
    | none => rw [h1] at h; cases h
    | some c =>
      rw [h1] at h
      dsimp only [] at h
      by_cases hrc : recheck ws2 now2 c = true
      · rw [if_pos hrc] at h
        unfold recheck at hrc
        match h2 : oldest_carrier ws2 now2 with
        | none => rw [h2] at hrc; cases hrc
        | some o =>
          rw [h2] at hrc
          match h3 : currentView ws2 c with
          | none => rw [h3] at hrc; cases hrc
          | some v2 =>
            rw [h3] at hrc
            simp only [beq_iff_eq] at hrc
            rw [h3] at h
            have hv : v2 = v := by injection h
            have ho : o = v := by rw [hrc, hv]
            rw [ho] at h2
            exact pickOldest_spec _ v h2
      · rw [if_neg hrc] at h
        cases h
  · intro ws1 now1 ws2 now2 c h1 h2
    unfold next_target_step
    rw [h1]
    dsimp only []
    rw [h2]
    simp

/-- Witness for C5: the selection minimality applied to the concrete A/B
scenario. -/
theorem claim_C5_poll_fairness_witness :
    Cand.internal carrierA ∈ candidates wsAB 0
    ∧ ∀ d ∈ candidates wsAB 0,
        (Cand.internal carrierA).lastUpdate ≤ d.lastUpdate :=
  claim_C5_poll_fairness.1 wsAB 0 (Cand.internal carrierA) (by decide)

/-! Claim C9: malformed-record isolation on sheet load. -/

theorem foldl_loadStep_none (headers : List String) :
    ∀ rows : List (List Cell),
      rows.foldl (loadStep headers) none = none := by
  intro rows
  induction rows with
  | nil => rfl
  | cons row rest ih =>
    rw [List.foldl_cons]
    exact ih

theorem load_carriers_foldl (headers : List String) :
    ∀ (rows : List (List Cell)) (cs : List Carrier) (es : List String),
      (∀ r ∈ rows, load_carrier headers r ≠ Except.error RowErr.index) →
      rows.foldl (loadStep headers) (some (cs, es)) =
      some (cs ++ rows.filterMap (loadOk headers),
            es ++ rows.filterMap (loadErr headers)) := by
  intro rows
  induction rows with
  | nil => intro cs es _; simp
  | cons row rest ih =>
    intro cs es hni
    have hrest : ∀ r ∈ rest, load_carrier headers r ≠ Except.error RowErr.index :=
      fun r hr => hni r (List.mem_cons_of_mem _ hr)
    rw [List.foldl_cons]
    match hlc : load_carrier headers row with
    | Except.error (RowErr.value e) =>
      have hstep : loadStep headers (some (cs, es)) row = some (cs, es ++ [e]) := by
        unfold loadStep
        rw [hlc]
      have hok0 : loadOk headers row = none := by
        unfold loadOk
        rw [hlc]
      have herr0 : loadErr headers row = some e := by
        unfold loadErr
        rw [hlc]
      rw [hstep, ih cs (es ++ [e]) hrest, List.filterMap_cons,
        List.filterMap_cons, hok0, herr0]
      simp
    | Except.error RowErr.index =>
      exact absurd hlc (hni row (List.mem_cons_self _ _))
    | Except.ok none =>
      have hstep : loadStep headers (some (cs, es)) row = some (cs, es) := by
        unfold loadStep
        rw [hlc]
      have hok0 : loadOk headers row = none := by
        unfold loadOk
        rw [hlc]
      have herr0 : loadErr headers row = none := by
        unfold loadErr
        rw [hlc]
      rw [hstep, ih cs es hrest, List.filterMap_cons, List.filterMap_cons,
        hok0, herr0]
    | Except.ok (some c) =>
      have hstep : loadStep headers (some (cs, es)) row = some (cs ++ [c], es) := by
        unfold loadStep
        rw [hlc]
      have hok0 : loadOk headers row = some c := by
        unfold loadOk
        rw [hlc]
      have herr0 : loadErr headers row = none := by
        unfold loadErr
        rw [hlc]
      rw [hstep, ih (cs ++ [c]) es hrest, List.filterMap_cons,
        List.filterMap_cons, hok0, herr0]
      simp

theorem load_carriers_aborts (headers : List String) :
    ∀ (rows : List (List Cell)) (acc : Option (List Carrier × List String)),
      (∃ r ∈ rows, load_carrier headers r = Except.error RowErr.index) →
      rows.foldl (loadStep headers) acc = none := by
  intro rows
  induction rows with
  | nil => intro acc h; simp at h
  | cons row rest ih =>
    intro acc h
    rw [List.foldl_cons]
    obtain ⟨r, hr, hre⟩ := h
    rcases List.mem_cons.mp hr with heq | hmem
    · subst heq
      have hstep : loadStep headers acc r = none := by
        cases acc with
        | none => rfl
        | some st =>
          unfold loadStep
          rw [hre]
      rw [hstep]
      exact foldl_loadStep_none headers rest
    · exact ih _ ⟨r, hmem, hre⟩

theorem filterMap_all_none {α β : Type} (f : α → Option β) :
    ∀ l : List α, (∀ a ∈ l, f a = none) → l.filterMap f = [] := by
  intro l
  induction l with
  | nil => intro _; rfl
  | cons x xs ih =>
    intro h
    rw [List.filterMap_cons, h x (by simp)]
    exact ih (fun a ha => h a (List.mem_cons_of_mem _ ha))

theorem length_filterMap_all_some {α β : Type} (f : α → Option β) :
    ∀ l : List α, (∀ a ∈ l, (f a).isSome) →
      (l.filterMap f).length = l.length := by
  intro l
  induction l with
  | nil => intro _; rfl
  | cons x xs ih =>
    intro h
    obtain ⟨b, hb⟩ := Option.isSome_iff_exists.mp (h x (by simp))
    rw [List.filterMap_cons, hb]
    simp only [List.length_cons]
    rw [ih (fun a ha => h a (List.mem_cons_of_mem _ ha))]

/-- C9 counterexample: a sheet holding one fully valid row and one ragged
row (a single cell, so reading the `Name` column is out of range) does not
load the valid carrier with the ragged row skipped — the whole load raises
the uncaught `IndexError` and yields nothing, refuting "the invalid row is
logged and skipped, and the load operation never raises". -/
theorem claim_C9_counterexample :
    load_carrier sheetHeaders goodRow = Except.ok (some carrierGoodRow)
    ∧ load_carrier sheetHeaders shortRow = Except.error RowErr.index
    ∧ load_carriers sheetHeaders [goodRow, shortRow] = none := by decide

/-- C9 (amended): a row whose checked cells are all present but fail a
type/regex check raises `ValueError`, which `load_carriers` catches: with
N otherwise valid rows, exactly the N valid carriers load in row order and
the single error message is logged.  But a row shorter than some checked
column's position raises `IndexError` inside `validate_row`, which the
`except ValueError` clause does not catch: the entire load aborts,
wherever that row sits. -/
theorem claim_C9_amended (headers : List String)
    (pre post : List (List Cell)) (bad : List Cell) (e : String)
    (hvalid : ∀ r ∈ pre ++ post, ∃ c,
      load_carrier headers r = Except.ok (some c))
    (hbad : load_carrier headers bad = Except.error (RowErr.value e)) :
    (load_carriers headers (pre ++ bad :: post) =
        some (pre.filterMap (loadOk headers) ++ post.filterMap (loadOk headers),
              [e])
     ∧ (pre.filterMap (loadOk headers)
          ++ post.filterMap (loadOk headers)).length =
        pre.length + post.length)
    ∧ ∀ (rows1 rows2 : List (List Cell)) (ragged : List Cell),
        load_carrier headers ragged = Except.error RowErr.index →
        load_carriers headers (rows1 ++ ragged :: rows2) = none := by
  have hok : ∀ r ∈ pre ++ post, ((loadOk headers r).isSome : Prop) := by
    intro r hr
    obtain ⟨c, hc⟩ := hvalid r hr
    have h0 : loadOk headers r = some c := by
      unfold loadOk
      rw [hc]
    rw [h0]
    rfl
  have herr : ∀ r ∈ pre ++ post, loadErr headers r = none := by
    intro r hr
    obtain ⟨c, hc⟩ := hvalid r hr
    unfold loadErr
    rw [hc]
  have hbadok : loadOk headers bad = none := by
    unfold loadOk
    rw [hbad]
  have hbaderr : loadErr headers bad = some e := by
    unfold loadErr
    rw [hbad]
  have hni : ∀ r ∈ pre ++ bad :: post,
      load_carrier headers r ≠ Except.error RowErr.index := by
    intro r hr
    rcases List.mem_append.mp hr with hp | hbp
    · obtain ⟨c, hc⟩ := hvalid r (List.mem_append_left _ hp)
      rw [hc]
      intro hx
      exact Except.noConfusion hx
    · rcases List.mem_cons.mp hbp with heq | hq
      · subst heq
        rw [hbad]
        intro hx
        exact RowErr.noConfusion (Except.noConfusion hx id)
      · obtain ⟨c, hc⟩ := hvalid r (List.mem_append_right _ hq)
        rw [hc]
        intro hx
        exact Except.noConfusion hx
  have hrun : load_carriers headers (pre ++ bad :: post) =
      some ((pre ++ bad :: post).filterMap (loadOk headers),
            (pre ++ bad :: post).filterMap (loadErr headers)) := by
    unfold load_carriers
    rw [load_carriers_foldl headers (pre ++ bad :: post) [] [] hni]
    simp
  refine ⟨⟨?_, ?_⟩, ?_⟩
  · rw [hrun]
    simp only [List.filterMap_append, List.filterMap_cons, hbadok, hbaderr]
    rw [filterMap_all_none (loadErr headers) pre
        (fun r hr => herr r (List.mem_append_left _ hr)),
      filterMap_all_none (loadErr headers) post
        (fun r hr => herr r (List.mem_append_right _ hr))]
    rfl
  · rw [List.length_append]
    rw [length_filterMap_all_some (loadOk headers) pre
        (fun r hr => hok r (List.mem_append_left _ hr)),
      length_filterMap_all_some (loadOk headers) post
        (fun r hr => hok r (List.mem_append_right _ hr))]
  · intro rows1 rows2 ragged hragged
    exact load_carriers_aborts headers (rows1 ++ ragged :: rows2) _
      ⟨ragged, List.mem_append_right _ (List.mem_cons_self _ _), hragged⟩

/-- Witness for C9 (amended): a two-row sheet with one valid and one
type-invalid (but full-length) row loads exactly one carrier and logs one
error, and any sheet holding the one-cell ragged row aborts wholesale. -/
theorem claim_C9_amended_witness :
    (load_carriers sheetHeaders ([goodRow] ++ badRow :: []) =
        some (List.filterMap (loadOk sheetHeaders) [goodRow]
                ++ List.filterMap (loadOk sheetHeaders) [],
              ["Cannot load row"])
     ∧ (List.filterMap (loadOk sheetHeaders) [goodRow]
          ++ List.filterMap (loadOk sheetHeaders) []).length = 1)
    ∧ ∀ (rows1 rows2 : List (List Cell)) (ragged : List Cell),
        load_carrier sheetHeaders ragged = Except.error RowErr.index →
        load_carriers sheetHeaders (rows1 ++ ragged :: rows2) = none :=
  claim_C9_amended sheetHeaders [goodRow] [] badRow "Cannot load row"
    (by
      intro r hr
      simp only [List.append_nil, List.mem_singleton] at hr
      subst hr
      exact ⟨carrierGoodRow, by decide⟩)
    (by decide)

/-! Claim C2: the restock lifecycle. -/

theorem openFor_preserved_by_update (cs : String) (t : Restock)
    (d tg : Int) :
    openFor cs { t with tritium :=
      { t.tritium with delivered := d, required := tg } } = openFor cs t := rfl

/-- C2: for an active carrier selling tritium (demand 0) with no open task,
`try_restock` is a no-op when stock exceeds the reserve and otherwise opens
exactly one task with `required = initial = allocated_space - stock` and
`delivered = 0`; and with an open task, whenever the recomputed `delivered`
reaches 80% of the (recomputed) `required`, the task is closed with stage
COMPLETE and its end timestamp set, and the carrier's `restock_status` is
cleared to `None`. -/
theorem claim_C2_restock_lifecycle :
    (∀ (c : Carrier) (tasks : List Restock) (now : Time) (m : Int) (g : Good),
        c.active_depot = true → tritium c.market = some g →
        g.demand.quantity = 0 → c.restock_status = none →
        (g.stock.quantity > c.reserve_tritium →
          try_restock c tasks now m = some (c, tasks))
        ∧ (¬g.stock.quantity > c.reserve_tritium →
          try_restock c tasks now m = some
            ({ c with restock_status := some Stage.pending },
             tasks ++
               [{ carrier := (c.name, c.display_name)
                , tritium :=
                    { required := c.allocated_space - g.stock.quantity
                    , initial := c.allocated_space - g.stock.quantity
                    , delivered := 0, sell_price := none }
                , system := c.system, haulers := []
                , progress :=
                    { stage := Stage.pending, start := now, end_ := none }
                , message := m }])))
    ∧ (∀ (c : Carrier) (tasks : List Restock) (now : Time) (m : Int)
        (g : Good) (st : Stage) (r : Restock) (raw target delivered : Int),
        c.active_depot = true → tritium c.market = some g →
        g.demand.quantity = 0 → c.restock_status = some st →
        restocksFind tasks c.name = some r →
        raw = g.stock.quantity - (c.allocated_space - r.tritium.required) →
        target = (if raw < 0 then r.tritium.required - raw
          else r.tritium.required) →
        delivered = (if raw < 0 then 0 else raw) →
        4 * target ≤ 5 * delivered →
        ∃ c1 t1, try_restock c tasks now m = some (c1, t1)
          ∧ c1.restock_status = none
          ∧ ∃ t2 ∈ t1, t2.carrier.1 = c.name
              ∧ t2.progress.stage = Stage.complete
              ∧ t2.progress.end_ = some now
              ∧ t2.tritium.delivered = delivered
              ∧ t2.tritium.required = target) := by
  constructor
  · intro c tasks now m g hact htrit hdem hst
    constructor
    · intro hq
      exact try_restock_healthy c tasks now m g hact htrit
        (by rw [hdem]; exact lt_irrefl 0) hst hq
    · intro hq
      rw [try_restock_creates c tasks now m g hact htrit
        (by rw [hdem]; exact lt_irrefl 0) hst hq]
      rfl
  · intro c tasks now m g st r raw target delivered hact htrit hdem hst hr
      hraw htarget hdel hthr
    have hr0 : tasks.find? (openFor c.name) = some r := hr
    have hpr : openFor c.name r = true := List.find?_some hr0
    have hfr : openFor c.name
        ({ r with tritium :=
          { r.tritium with delivered := delivered, required := target } }) =
        true := hpr
    have hfind1 : restocksFind (update_restock c tasks delivered target)
        c.name = some ({ r with tritium :=
          { r.tritium with delivered := delivered, required := target } }) := by
      unfold restocksFind update_restock
      exact find?_updateFirst_self _ _ tasks r hr0 hfr
    rw [try_restock_open c tasks now m g st r hact htrit
      (by rw [hdem]; exact lt_irrefl 0) hst hr raw target delivered hraw
      htarget hdel]
    rw [if_pos hthr]
    unfold close_restock
    rw [hfind1, htrit]
    dsimp only []
    refine ⟨_, _, rfl, rfl, ?_⟩
    refine ⟨_, mem_updateFirst_of_find? (openFor c.name) _ _ _ hfind1,
      ?_, rfl, rfl, rfl, rfl⟩
    have h2 := hpr
    simp only [openFor, Bool.and_eq_true, beq_iff_eq] at h2
    exact h2.1

/-- Witness for C2: the creation branch on a concrete healthy carrier. -/
theorem claim_C2_restock_lifecycle_witness :
    try_restock cNormal [] 10 77 = some (cNormalAfter, [taskNormal]) :=
  ((claim_C2_restock_lifecycle.1 cNormal [] 10 77 (tritGood 10 400)
    rfl rfl rfl rfl).2 (by decide))

/-! Claim C3: consumption-during-restock clamping. -/

theorem update_restock_mem (c : Carrier) (tasks : List Restock) (r : Restock)
    (D T : Int) (hfind : restocksFind tasks c.name = some r) (hD : 0 ≤ D) :
    ∀ t2 ∈ update_restock c tasks D T,
      t2 ∈ tasks ∨ 0 ≤ t2.tritium.delivered := by
  intro t2 ht2
  rcases mem_updateFirst_cases (openFor c.name) _ tasks r t2 hfind ht2 with
    h1 | h1
  · exact Or.inl h1
  · subst h1
    exact Or.inr hD

theorem close_after_update_mem (c : Carrier) (tasks : List Restock)
    (now : Time) (r : Restock) (D T : Int) (c1 : Carrier) (t1 : List Restock)
    (hfind : restocksFind tasks c.name = some r) (hD : 0 ≤ D)
    (h : close_restock c (update_restock c tasks D T) now = some (c1, t1)) :
    ∀ t2 ∈ t1, t2 ∈ tasks ∨ 0 ≤ t2.tritium.delivered := by
  have hr0 : tasks.find? (openFor c.name) = some r := hfind
  have hfr : openFor c.name r = true := List.find?_some hr0
  have hu : (update_restock c tasks D T).find? (openFor c.name) =
      some ({ r with
        tritium := { r.tritium with delivered := D, required := T } }) :=
    find?_updateFirst_self (openFor c.name)
      (fun t => { t with
        tritium := { t.tritium with delivered := D, required := T } })
      tasks r hr0 hfr
  unfold close_restock at h
  split at h
  · injection h with h1
    injection h1 with h2 h3
    subst h3
    intro t2 ht2
    rcases mem_updateFirst_cases (openFor c.name) _ _ _ t2 hu ht2 with
      hm | hm
    · exact update_restock_mem c tasks r D T hfind hD t2 hm
    · subst hm
      exact Or.inr hD
  · cases h

/-- Every task stored by a `try_restock` call either was already stored or
carries a non-negative `delivered`. -/
theorem try_restock_delivered_nonneg (c : Carrier) (tasks : List Restock)
    (now : Time) (m : Int) (c1 : Carrier) (t1 : List Restock)
    (h : try_restock c tasks now m = some (c1, t1)) :
    ∀ t2 ∈ t1, t2 ∈ tasks ∨ 0 ≤ t2.tritium.delivered := by
  unfold try_restock at h
  split at h
  · injection h with h1
    injection h1 with h2 h3
    subst h3
    exact fun t2 ht2 => Or.inl ht2
  · split at h
    · injection h with h1
      injection h1 with h2 h3
      subst h3
      exact fun t2 ht2 => Or.inl ht2
    · split at h
      · injection h with h1
        injection h1 with h2 h3
        subst h3
        exact fun t2 ht2 => Or.inl ht2
      · split at h
        · split at h
          · injection h with h1
            injection h1 with h2 h3
            subst h3
            exact fun t2 ht2 => Or.inl ht2
          · injection h with h1
            unfold new_restock at h1
            injection h1 with h2 h3
            subst h3
            intro t2 ht2
            rcases List.mem_append.mp ht2 with hm | hm
            · exact Or.inl hm
            · rw [List.mem_singleton.mp hm]
              exact Or.inr (le_refl 0)
        · split at h
          · cases h
          · rename_i r hfind
            dsimp only [] at h
            split at h <;> split at h
            · exact close_after_update_mem _ _ _ _ _ _ _ _ hfind
                (le_refl 0) h
            · injection h with h1
              injection h1 with h2 h3
              subst h3
              exact update_restock_mem _ _ _ _ _ hfind (le_refl 0)
            · rename_i hneg hthr
              exact close_after_update_mem _ _ _ _ _ _ _ _ hfind
                (by omega) h
            · rename_i hneg hthr
              injection h with h1
              injection h1 with h2 h3
              subst h3
              exact update_restock_mem _ _ _ _ _ hfind (by omega)

/-- C3: with an open task, when the recomputed
`delivered = stock - (allocated_space - required)` is negative the task's
`required` grows by exactly the absolute deficit and `delivered` is set to
0; and in every case a task written by `try_restock` stores a non-negative
`delivered`. -/
theorem claim_C3_deficit_clamp :
    (∀ (c : Carrier) (tasks : List Restock) (now : Time) (m : Int)
        (g : Good) (st : Stage) (r : Restock) (raw : Int),
        c.active_depot = true → tritium c.market = some g →
        g.demand.quantity = 0 → c.restock_status = some st →
        restocksFind tasks c.name = some r →
        raw = g.stock.quantity - (c.allocated_space - r.tritium.required) →
        raw < 0 →
        ∃ c1 t1, try_restock c tasks now m = some (c1, t1)
          ∧ ∃ t2 ∈ t1, t2.carrier.1 = c.name
              ∧ t2.tritium.required = r.tritium.required + |raw|
              ∧ t2.tritium.delivered = 0)
    ∧ (∀ (c : Carrier) (tasks : List Restock) (now : Time) (m : Int)
        (c1 : Carrier) (t1 : List Restock),
        try_restock c tasks now m = some (c1, t1) →
        ∀ t2 ∈ t1, t2 ∈ tasks ∨ 0 ≤ t2.tritium.delivered) := by
  constructor
  · intro c tasks now m g st r raw hact htrit hdem hst hr hraw hneg
    have hr0 : tasks.find? (openFor c.name) = some r := hr
    have hpr : openFor c.name r = true := List.find?_some hr0
    have hname : r.carrier.1 = c.name := by
      have h2 := hpr
      simp only [openFor, Bool.and_eq_true, beq_iff_eq] at h2
      exact h2.1
    have habs : r.tritium.required - raw = r.tritium.required + |raw| := by
      rw [abs_of_neg hneg]
      ring
    rw [try_restock_open c tasks now m g st r hact htrit
      (by rw [hdem]; exact lt_irrefl 0) hst hr raw
      (r.tritium.required - raw) 0 hraw (if_pos hneg).symm
      (if_pos hneg).symm]
    have hfind1 : restocksFind
        (update_restock c tasks 0 (r.tritium.required - raw)) c.name =
        some ({ r with
          tritium := { r.tritium with
            delivered := 0, required := r.tritium.required - raw } }) :=
      find?_updateFirst_self (openFor c.name)
        (fun t => { t with
          tritium := { t.tritium with
            delivered := 0, required := r.tritium.required - raw } })
        tasks r hr0 hpr
    by_cases hthr : 4 * (r.tritium.required - raw) ≤ 5 * (0 : Int)
    · rw [if_pos hthr]
      unfold close_restock
      rw [hfind1, htrit]
      dsimp only []
      refine ⟨_, _, rfl, ?_⟩
      refine ⟨_, mem_updateFirst_of_find? (openFor c.name) _ _ _ hfind1,
        hname, ?_, rfl⟩
      dsimp only []
      rw [habs]
    · rw [if_neg hthr]
      refine ⟨_, _, rfl, ?_⟩
      refine ⟨_, mem_updateFirst_of_find? (openFor c.name) _ _ _ hr0,
        hname, ?_, rfl⟩
      dsimp only []
      rw [habs]
  · intro c tasks now m c1 t1 h
    exact try_restock_delivered_nonneg c tasks now m c1 t1 h

/-- Witness for C3: a concrete carrier whose stock dropped 100 tonnes below
the level its open task was computed from. -/
theorem claim_C3_deficit_clamp_witness :
    ∃ c1 t1, try_restock cOpenDrop [taskOpenDrop] 30 88 = some (c1, t1)
      ∧ ∃ t2 ∈ t1, t2.carrier.1 = cOpenDrop.name
          ∧ t2.tritium.required = taskOpenDrop.tritium.required + |(-100 : Int)|
          ∧ t2.tritium.delivered = 0 :=
  claim_C3_deficit_clamp.1 cOpenDrop [taskOpenDrop] 30 88 (tritGood 10 300)
    Stage.pending taskOpenDrop (-100) rfl rfl rfl rfl (by decide) (by decide)
    (by decide)

/-! Claim C4: idempotence of `try_restock`. -/

/-- Tasks in a terminal stage are never modified by `try_restock`: they
remain in the collection with identical fields. -/
theorem try_restock_keeps_terminal (c : Carrier) (tasks : List Restock)
    (now : Time) (m : Int) (c1 : Carrier) (t1 : List Restock)
    (h : try_restock c tasks now m = some (c1, t1)) :
    ∀ t2 ∈ tasks, isOpenTask t2 = false → t2 ∈ t1 := by
  have hnotp : ∀ (t2 : Restock), isOpenTask t2 = false →
      ∀ cs, openFor cs t2 = false := by
    intro t2 h2 cs
    simp [openFor, h2]
  unfold try_restock at h
  split at h
  · injection h with h1
    injection h1 with h2 h3
    subst h3
    exact fun t2 ht2 _ => ht2
  · split at h
    · injection h with h1
      injection h1 with h2 h3
      subst h3
      exact fun t2 ht2 _ => ht2
    · split at h
      · injection h with h1
        injection h1 with h2 h3
        subst h3
        exact fun t2 ht2 _ => ht2
      · split at h
        · split at h
          · injection h with h1
            injection h1 with h2 h3
            subst h3
            exact fun t2 ht2 _ => ht2
          · injection h with h1
            unfold new_restock at h1
            injection h1 with h2 h3
            subst h3
            exact fun t2 ht2 _ => List.mem_append_left _ ht2
        · split at h
          · cases h
          · rename_i r hfind
            dsimp only [] at h
            have hterm : ∀ (D T : Int) (t2 : Restock), t2 ∈ tasks →
                isOpenTask t2 = false → t2 ∈ update_restock c tasks D T := by
              intro D T t2 ht2 hop
              exact mem_updateFirst_of_not_p _ _ tasks t2 ht2
                (hnotp t2 hop c.name)
            have hclose : ∀ (D T : Int) (c2 : Carrier) (t3 : List Restock),
                close_restock c (update_restock c tasks D T) now =
                  some (c2, t3) →
                ∀ t2 ∈ tasks, isOpenTask t2 = false → t2 ∈ t3 := by
              intro D T c2 t3 hc t2 ht2 hop
              unfold close_restock at hc
              split at hc
              · injection hc with h1
                injection h1 with h2 h3
                subst h3
                exact mem_updateFirst_of_not_p _ _ _ t2
                  (hterm D T t2 ht2 hop) (hnotp t2 hop c.name)
              · cases hc
            split at h <;> split at h
            · exact fun t2 ht2 hop => hclose _ _ _ _ h t2 ht2 hop
            · injection h with h1
              injection h1 with h2 h3
              subst h3
              exact fun t2 ht2 hop => hterm _ _ t2 ht2 hop
            · exact fun t2 ht2 hop => hclose _ _ _ _ h t2 ht2 hop
            · injection h with h1
              injection h1 with h2 h3
              subst h3
              exact fun t2 ht2 hop => hterm _ _ t2 ht2 hop

/-- Updating the open task's tritium figures does not change the open-task
count. -/
theorem update_restock_openCount (c : Carrier) (tasks : List Restock)
    (D T : Int) :
    openCount (update_restock c tasks D T) c.name = openCount tasks c.name := by
  unfold openCount update_restock
  exact length_filter_updateFirst_pres (openFor c.name)
    (fun t => { t with
      tritium := { t.tritium with delivered := D, required := T } })
    (fun x => rfl) tasks

/-- Closing the (unique) open task after an update leaves a coherent state:
the carrier's status is cleared and no open task remains. -/
theorem close_after_update_coherent (c : Carrier) (tasks : List Restock)
    (now : Time) (g2 : Good) (r : Restock) (D T : Int) (c1 : Carrier)
    (t1 : List Restock)
    (hfind : tasks.find? (openFor c.name) = some r)
    (htr : tritium c.market = some g2)
    (hcount1 : openCount tasks c.name = 1)
    (h : close_restock c (update_restock c tasks D T) now = some (c1, t1)) :
    coherent c1 t1 = true := by
  have hfr : openFor c.name r = true := List.find?_some hfind
  have hu := find?_updateFirst_self (openFor c.name)
    (fun t => { t with
      tritium := { t.tritium with delivered := D, required := T } })
    tasks r hfind hfr
  have hu2 : restocksFind (update_restock c tasks D T) c.name =
      some ({ r with
        tritium := { r.tritium with delivered := D, required := T } }) := hu
  unfold close_restock at h
  rw [hu2, htr] at h
  dsimp only [] at h
  injection h with h1
  injection h1 with h2 h3
  subst h2
  unfold coherent
  dsimp only []
  unfold openCount
  simp only [beq_iff_eq]
  have hkill : (List.filter (openFor c.name) t1).length + 1 =
      (List.filter (openFor c.name) (update_restock c tasks D T)).length := by
    rw [← h3]
    exact length_filter_updateFirst_kills _ _
      (fun x => by simp [openFor, isOpenTask]) _ _ hu
  have hp := update_restock_openCount c tasks D T
  unfold openCount at hp hcount1
  omega

/-- With the status still open, updating the tritium figures keeps the state
coherent. -/
theorem open_update_coherent (c : Carrier) (tasks : List Restock) (st : Stage)
    (D T : Int) (hst : c.restock_status = some st)
    (hcount1 : openCount tasks c.name = 1) :
    coherent c (update_restock c tasks D T) = true := by
  unfold coherent
  rw [hst]
  dsimp only []
  simp only [beq_iff_eq]
  have hp := update_restock_openCount c tasks D T
  unfold openCount at hp hcount1 ⊢
  omega

/-- `try_restock` preserves the status/collection coherence invariant; in
particular it never yields a second open task for the carrier. -/
theorem try_restock_coherent (c : Carrier) (tasks : List Restock)
    (now : Time) (m : Int) (c1 : Carrier) (t1 : List Restock)
    (hcoh : coherent c tasks = true)
    (h : try_restock c tasks now m = some (c1, t1)) :
    coherent c1 t1 = true := by
  cases hact : c.active_depot with
  | false =>
    rw [try_restock_inactive c tasks now m hact] at h
    injection h with h1
    injection h1 with h2 h3
    subst h2 h3
    exact hcoh
  | true =>
    match htrit : tritium c.market with
    | none =>
      rw [try_restock_no_tritium c tasks now m hact htrit] at h
      injection h with h1
      injection h1 with h2 h3
      subst h2 h3
      exact hcoh
    | some g =>
      by_cases hdem : g.demand.quantity > 0
      · rw [try_restock_buying c tasks now m g hact htrit hdem] at h
        injection h with h1
        injection h1 with h2 h3
        subst h2 h3
        exact hcoh
      · match hst : c.restock_status with
        | none =>
          by_cases hq : g.stock.quantity > c.reserve_tritium
          · rw [try_restock_healthy c tasks now m g hact htrit hdem hst hq]
              at h
            injection h with h1
            injection h1 with h2 h3
            subst h2 h3
            exact hcoh
          · rw [try_restock_creates c tasks now m g hact htrit hdem hst hq]
              at h
            unfold new_restock at h
            injection h with h1
            injection h1 with h2 h3
            subst h2 h3
            unfold coherent at hcoh ⊢
            rw [hst] at hcoh
            dsimp only []
            unfold openCount at hcoh ⊢
            simp only [beq_iff_eq] at hcoh ⊢
            rw [List.filter_append, List.length_append, hcoh]
            simp [openFor, isOpenTask, creationTask]
        | some st =>
          match hr : restocksFind tasks c.name with
          | none =>
            rw [try_restock_open_missing c tasks now m g st hact htrit hdem
              hst hr] at h
            cases h
          | some r =>
            have hr0 : tasks.find? (openFor c.name) = some r := hr
            have hcount1 : openCount tasks c.name = 1 := by
              unfold coherent at hcoh
              rw [hst] at hcoh
              simpa using hcoh
            rw [try_restock_open c tasks now m g st r hact htrit hdem hst hr
              _ _ _ rfl rfl rfl] at h
            split at h <;> split at h
            · exact close_after_update_coherent c tasks now g r _ _ c1 t1
                hr0 htrit hcount1 h
            · injection h with h1
              injection h1 with h2 h3
              subst h2 h3
              exact open_update_coherent c tasks st _ _ hst hcount1
            · exact close_after_update_coherent c tasks now g r _ _ c1 t1
                hr0 htrit hcount1 h
            · injection h with h1
              injection h1 with h2 h3
              subst h2 h3
              exact open_update_coherent c tasks st _ _ hst hcount1

theorem find?_none_of_count0 {α : Type} (p : α → Bool) (l : List α)
    (h : (l.filter p).length = 0) : l.find? p = none := by
  apply List.find?_eq_none.mpr
  intro x hx hpx
  have hnil : l.filter p = [] := List.length_eq_zero.mp h
  have : x ∈ l.filter p := List.mem_filter.mpr ⟨hx, hpx⟩
  rw [hnil] at this
  simp at this

/-- When the first call leaves the carrier with an open, not-yet-satisfied
task, a second call with the same market is a strict no-op. -/
theorem try_restock_idempotent (c : Carrier) (tasks : List Restock)
    (now1 now2 : Time) (m1 m2 : Int) (c1 : Carrier) (t1 : List Restock)
    (r : Restock) (hcoh : coherent c tasks = true)
    (h : try_restock c tasks now1 m1 = some (c1, t1))
    (hopen : c1.restock_status ≠ none)
    (hr1 : restocksFind t1 c1.name = some r)
    (hunsat : 5 * r.tritium.delivered < 4 * r.tritium.required) :
    try_restock c1 t1 now2 m2 = some (c1, t1) := by
  cases hact : c.active_depot with
  | false =>
    rw [try_restock_inactive c tasks now1 m1 hact] at h
    injection h with h1
    injection h1 with h2 h3
    subst h2 h3
    exact try_restock_inactive c tasks now2 m2 hact
  | true =>
    match htrit : tritium c.market with
    | none =>
      rw [try_restock_no_tritium c tasks now1 m1 hact htrit] at h
      injection h with h1
      injection h1 with h2 h3
      subst h2 h3
      exact try_restock_no_tritium c tasks now2 m2 hact htrit
    | some g =>
      by_cases hdem : g.demand.quantity > 0
      · rw [try_restock_buying c tasks now1 m1 g hact htrit hdem] at h
        injection h with h1
        injection h1 with h2 h3
        subst h2 h3
        exact try_restock_buying c tasks now2 m2 g hact htrit hdem
      · match hst : c.restock_status with
        | none =>
          by_cases hq : g.stock.quantity > c.reserve_tritium
          · rw [try_restock_healthy c tasks now1 m1 g hact htrit hdem hst hq]
              at h
            injection h with h1
            injection h1 with h2 h3
            subst h2 h3
            exact try_restock_healthy c tasks now2 m2 g hact htrit hdem hst hq
          · rw [try_restock_creates c tasks now1 m1 g hact htrit hdem hst hq]
              at h
            unfold new_restock at h
            injection h with h1
            injection h1 with h2 h3
            subst h2 h3
            dsimp only [] at hr1
            have hcount0 : (tasks.filter (openFor c.name)).length = 0 := by
              unfold coherent at hcoh
              rw [hst] at hcoh
              unfold openCount at hcoh
              simpa using hcoh
            have hfnone : tasks.find? (openFor c.name) = none :=
              find?_none_of_count0 _ _ hcount0
            have hnt : openFor c.name (creationTask c g now1 m1) = true := by
              simp [openFor, isOpenTask, creationTask]
            have hfnt : (tasks ++ [creationTask c g now1 m1]).find?
                (openFor c.name) = some (creationTask c g now1 m1) := by
              rw [find?_append_of_none _ _ _ hfnone]
              simp [List.find?, hnt]
            have hreq := hr1
            unfold restocksFind at hreq
            rw [hfnt] at hreq
            injection hreq with hreq2
            subst hreq2
            rw [try_restock_open
              ({ c with restock_status := some Stage.pending })
              (tasks ++ [creationTask c g now1 m1]) now2 m2 g Stage.pending
              (creationTask c g now1 m1) hact htrit hdem rfl hfnt 0
              (c.allocated_space - g.stock.quantity) 0
              (by dsimp only [creationTask]; ring) (by simp [creationTask])
              (by simp)]
            have hd0 : (4 : Int) * (c.allocated_space - g.stock.quantity) ≤
                5 * 0 → False := by
              have h5 := hunsat
              dsimp only [creationTask] at h5
              omega
            rw [if_neg hd0]
            have hid : update_restock
                ({ c with restock_status := some Stage.pending })
                (tasks ++ [creationTask c g now1 m1]) 0
                (c.allocated_space - g.stock.quantity) =
                tasks ++ [creationTask c g now1 m1] :=
              updateFirst_id_of_fix _ _ _ _ hfnt rfl
            rw [hid]
        | some st =>
          match hr : restocksFind tasks c.name with
          | none =>
            rw [try_restock_open_missing c tasks now1 m1 g st hact htrit hdem
              hst hr] at h
            cases h
          | some r0 =>
            have hr0 : tasks.find? (openFor c.name) = some r0 := hr
            have hfr : openFor c.name r0 = true := List.find?_some hr0
            rw [try_restock_open c tasks now1 m1 g st r0 hact htrit hdem hst
              hr _ _ _ rfl rfl rfl] at h
            split at h <;> split at h
            · have hc1 := close_restock_carrier _ _ _ _ _ _ h
              exact absurd (by rw [hc1]) hopen
            · rename_i hneg hthr
              injection h with h1
              injection h1 with h2 h3
              subst h2
              have hfind1 : t1.find? (openFor c.name) =
                  some ({ r0 with
                    tritium := { r0.tritium with
                      delivered := 0,
                      required := r0.tritium.required -
                        (g.stock.quantity -
                          (c.allocated_space - r0.tritium.required)) } }) := by
                rw [← h3]
                exact find?_updateFirst_self (openFor c.name)
                  (fun t => { t with
                    tritium := { t.tritium with
                      delivered := 0,
                      required := r0.tritium.required -
                        (g.stock.quantity -
                          (c.allocated_space - r0.tritium.required)) } })
                  tasks r0 hr0 hfr
              have hreq := hr1
              unfold restocksFind at hreq
              rw [hfind1] at hreq
              injection hreq with hreq2
              subst hreq2
              rw [try_restock_open c t1 now2 m2 g st _ hact htrit hdem hst
                hfind1 0 (r0.tritium.required -
                  (g.stock.quantity - (c.allocated_space - r0.tritium.required)))
                0 (by dsimp only []; ring) (by simp) (by simp)]
              have hd0 : (4 : Int) * (r0.tritium.required -
                  (g.stock.quantity -
                    (c.allocated_space - r0.tritium.required))) ≤ 5 * 0 →
                  False := by
                have h5 := hunsat
                dsimp only [] at h5
                omega
              rw [if_neg hd0]
              have hid : update_restock c t1 0 (r0.tritium.required -
                  (g.stock.quantity -
                    (c.allocated_space - r0.tritium.required))) = t1 :=
                updateFirst_id_of_fix _ _ t1 _ hfind1 rfl
              rw [hid]
            · have hc1 := close_restock_carrier _ _ _ _ _ _ h
              exact absurd (by rw [hc1]) hopen
            · rename_i hneg hthr
              injection h with h1
              injection h1 with h2 h3
              subst h2
              have hfind1 : t1.find? (openFor c.name) =
                  some ({ r0 with
                    tritium := { r0.tritium with
                      delivered := g.stock.quantity -
                        (c.allocated_space - r0.tritium.required),
                      required := r0.tritium.required } }) := by
                rw [← h3]
                exact find?_updateFirst_self (openFor c.name)
                  (fun t => { t with
                    tritium := { t.tritium with
                      delivered := g.stock.quantity -
                        (c.allocated_space - r0.tritium.required),
                      required := r0.tritium.required } })
                  tasks r0 hr0 hfr
              have hreq := hr1
              unfold restocksFind at hreq
              rw [hfind1] at hreq
              injection hreq with hreq2
              subst hreq2
              rw [try_restock_open c t1 now2 m2 g st _ hact htrit hdem hst
                hfind1 (g.stock.quantity -
                  (c.allocated_space - r0.tritium.required))
                r0.tritium.required
                (g.stock.quantity - (c.allocated_space - r0.tritium.required))
                (by dsimp only []) ((if_neg hneg).symm) ((if_neg hneg).symm)]
              rw [if_neg (by exact hthr)]
              have hid : update_restock c t1
                  (g.stock.quantity - (c.allocated_space - r0.tritium.required))
                  r0.tritium.required = t1 :=
                updateFirst_id_of_fix _ _ t1 _ hfind1 rfl
              rw [hid]

theorem openCount_le_one_of_coherent (c : Carrier) (tasks : List Restock)
    (h : coherent c tasks = true) : openCount tasks c.name ≤ 1 := by
  unfold coherent at h
  cases hst : c.restock_status with
  | none =>
    rw [hst] at h
    have h2 : openCount tasks c.name = 0 := by simpa using h
    omega
  | some st =>
    rw [hst] at h
    have h2 : openCount tasks c.name = 1 := by simpa using h
    omega

/-- C4 counterexample: on a degenerate but loadable carrier
(`allocated_space = 3000 < stock = 4000 ≤ reserve = 5000`) the first
`try_restock` call opens a task that already satisfies the 80% threshold
(`delivered = 0 ≥ 0.8 * (-1000)`); the second call, with no intervening
market change, closes that task — changing its stage, end and sell price —
so the claim that the second call leaves an already-satisfied task's fields
unchanged is false. -/
theorem claim_C4_counterexample :
    try_restock cDegen [] 10 77 = some (cDegenAfter1, [taskDegen1])
    ∧ 4 * taskDegen1.tritium.required ≤ 5 * taskDegen1.tritium.delivered
    ∧ try_restock cDegenAfter1 [taskDegen1] 20 88 =
        some (cDegenAfter2, [taskDegen2])
    ∧ taskDegen2 ≠ taskDegen1
    ∧ taskDegen1.progress.stage = Stage.pending
    ∧ taskDegen2.progress.stage = Stage.complete
    ∧ taskDegen2.progress.end_ = some 20 := by
  refine ⟨by decide, by decide, by decide, by decide, rfl, rfl, rfl⟩

/-- C4 amended: starting from a coherent state (the status mirrors the open
tasks), two consecutive `try_restock` calls with no intervening market
change never yield a duplicate open task (coherence is preserved, so at most
one open task remains), never modify a task already in a terminal stage, and
— when the first call leaves an open task that has not yet reached the 80%
threshold — the second call changes nothing at all.  (An open task that
already satisfies the threshold, which can only arise at creation with
`required ≤ 0`, is instead closed by the second call.) -/
theorem claim_C4_amended :
    (∀ (c : Carrier) (tasks : List Restock) (now : Time) (m : Int)
        (c1 : Carrier) (t1 : List Restock), coherent c tasks = true →
        try_restock c tasks now m = some (c1, t1) →
        coherent c1 t1 = true ∧ openCount t1 c1.name ≤ 1)
    ∧ (∀ (c : Carrier) (tasks : List Restock) (now1 now2 : Time)
        (m1 m2 : Int) (c1 : Carrier) (t1 : List Restock) (r : Restock),
        coherent c tasks = true →
        try_restock c tasks now1 m1 = some (c1, t1) →
        c1.restock_status ≠ none →
        restocksFind t1 c1.name = some r →
        5 * r.tritium.delivered < 4 * r.tritium.required →
        try_restock c1 t1 now2 m2 = some (c1, t1))
    ∧ (∀ (c : Carrier) (tasks : List Restock) (now : Time) (m : Int)
        (c1 : Carrier) (t1 : List Restock),
        try_restock c tasks now m = some (c1, t1) →
        ∀ t2 ∈ tasks, isOpenTask t2 = false → t2 ∈ t1) := by
  refine ⟨?_, ?_, ?_⟩
  · intro c tasks now m c1 t1 hcoh h
    have h1 := try_restock_coherent c tasks now m c1 t1 hcoh h
    exact ⟨h1, openCount_le_one_of_coherent c1 t1 h1⟩
  · intro c tasks now1 now2 m1 m2 c1 t1 r hcoh h hopen hr1 hunsat
    exact try_restock_idempotent c tasks now1 now2 m1 m2 c1 t1 r hcoh h
      hopen hr1 hunsat
  · intro c tasks now m c1 t1 h
    exact try_restock_keeps_terminal c tasks now m c1 t1 h

/-- Witness for C4: opening a task on a concrete healthy carrier preserves
coherence, and a second call on the still-unsatisfied task is a no-op. -/
theorem claim_C4_amended_witness :
    (coherent cNormalAfter [taskNormal] = true
      ∧ openCount [taskNormal] cNormalAfter.name ≤ 1)
    ∧ try_restock cNormalAfter [taskNormal] 20 88 =
        some (cNormalAfter, [taskNormal]) :=
  ⟨claim_C4_amended.1 cNormal [] 10 77 cNormalAfter [taskNormal]
      (by decide) (by decide),
   claim_C4_amended.2.1 cNormal [] 10 20 77 88 cNormalAfter [taskNormal]
      taskNormal (by decide) (by decide) (by decide) (by decide) (by decide)⟩

/-! Claim C1: the broadcast-path staleness gate. -/

/-- Closing after an update always succeeds when the carrier has an open
task and a tritium good. -/
theorem close_restock_total (c : Carrier) (tasks : List Restock) (now : Time)
    (g : Good) (D T : Int) (r : Restock)
    (hr0 : tasks.find? (openFor c.name) = some r)
    (htrit : tritium c.market = some g) :
    ∃ out, close_restock c (update_restock c tasks D T) now = some out := by
  have hfr : openFor c.name r = true := List.find?_some hr0
  have hfind1 : restocksFind (update_restock c tasks D T) c.name =
      some ({ r with
        tritium := { r.tritium with delivered := D, required := T } }) :=
    find?_updateFirst_self (openFor c.name)
      (fun t => { t with
        tritium := { t.tritium with delivered := D, required := T } })
      tasks r hr0 hfr
  unfold close_restock
  rw [hfind1, htrit]
  exact ⟨_, rfl⟩

/-- `try_restock` only hits its `assert` (returns `none`) when the status
claims an open task that does not exist. -/
theorem try_restock_total (c : Carrier) (tasks : List Restock) (now : Time)
    (m : Int)
    (hcoh : c.restock_status = none ∨ (restocksFind tasks c.name).isSome) :
    ∃ out, try_restock c tasks now m = some out := by
  cases hact : c.active_depot with
  | false => exact ⟨(c, tasks), try_restock_inactive c tasks now m hact⟩
  | true =>
    match htrit : tritium c.market with
    | none => exact ⟨(c, tasks), try_restock_no_tritium c tasks now m hact htrit⟩
    | some g =>
      by_cases hdem : g.demand.quantity > 0
      · exact ⟨(c, tasks), try_restock_buying c tasks now m g hact htrit hdem⟩
      · match hst : c.restock_status with
        | none =>
          by_cases hq : g.stock.quantity > c.reserve_tritium
          · exact ⟨(c, tasks),
              try_restock_healthy c tasks now m g hact htrit hdem hst hq⟩
          · exact ⟨new_restock c g tasks now m,
              try_restock_creates c tasks now m g hact htrit hdem hst hq⟩
        | some st =>
          have hsome : (restocksFind tasks c.name).isSome := by
            rcases hcoh with h1 | h1
            · rw [hst] at h1; cases h1
            · exact h1
          obtain ⟨r, hr⟩ := Option.isSome_iff_exists.mp hsome
          have hr0 : tasks.find? (openFor c.name) = some r := hr
          rw [try_restock_open c tasks now m g st r hact htrit hdem hst hr
            _ _ _ rfl rfl rfl]
          split <;> split <;> first
            | exact close_restock_total c tasks now g _ _ r hr0 htrit
            | exact ⟨_, rfl⟩

/-- C1 counterexample: a bridge stored in system "Alpha" receives a fresh
(`timestamp ≥ last_update`) broadcast naming system "Beta"; the market and
`last_update` are replaced but the stored system keeps the name "Alpha", so
the snapshot's system value is not applied. -/
theorem claim_C1_counterexample :
    ¬ (200 : Int) < bridgeHub.last_update
    ∧ bridgeHub.name = "HUB"
    ∧ listener stBridge edsmName "HUB" "Beta" [tritGood 5 100] 200 0 0 =
        some ⟨[{ bridgeHub with
          market := [tritGood 5 100], last_update := 200 }], [], []⟩
    ∧ ({ bridgeHub with
        market := [tritGood 5 100], last_update := 200 } : Bridge).system.name
        = "Alpha"
    ∧ ("Alpha" : String) ≠ "Beta" := by
  refine ⟨by decide, rfl, by decide, rfl, by decide⟩

/-- C1 amended: a broadcast older than the stored `last_update` leaves the
depot (bridge or carrier) unchanged; a broadcast with
`timestamp ≥ last_update` for a station matching the depot replaces market
and `last_update` with the given values, and replaces the system with the
EDSM-resolved system for the broadcast name when the depot is a carrier
(keeping the stored system when the names already agree), while a bridge
always retains its stored system. -/
theorem claim_C1_amended (st : DepotsState) (edsm : String → Option System)
    (station system : String) (market : List Good) (ts now : Time)
    (msgId : Int) :
    (∀ b, bridgesFind st.bridges station = some b → ts < b.last_update →
        listener st edsm station system market ts now msgId = some st)
    ∧ (∀ c, bridgesFind st.bridges station = none →
        carriersFind st.carriers station = some c → ts < c.last_update →
        listener st edsm station system market ts now msgId = some st)
    ∧ (∀ b, bridgesFind st.bridges station = some b → ¬ts < b.last_update →
        ∃ st', listener st edsm station system market ts now msgId = some st'
          ∧ st'.carriers = st.carriers ∧ st'.restocks = st.restocks
          ∧ bridgesFind st'.bridges station =
              some { b with market := market, last_update := ts })
    ∧ (∀ c sd, bridgesFind st.bridges station = none →
        carriersFind st.carriers station = some c → ¬ts < c.last_update →
        (if c.system.name ≠ system then edsm system else some c.system) =
          some sd →
        (c.restock_status = none ∨ (restocksFind st.restocks c.name).isSome) →
        ∃ st' c1,
          listener st edsm station system market ts now msgId = some st'
          ∧ st'.bridges = st.bridges
          ∧ carriersFind st'.carriers station = some c1
          ∧ c1.market = market ∧ c1.last_update = ts ∧ c1.system = sd
          ∧ ((∀ s s2, edsm s = some s2 → s2.name = s) →
              c1.system.name = system)) := by
  refine ⟨?_, ?_, ?_, ?_⟩
  · intro b hb hlt
    unfold listener
    rw [hb]
    dsimp only []
    rw [if_pos hlt]
  · intro c hbn hc hlt
    unfold listener
    rw [hbn]
    dsimp only []
    rw [hc]
    dsimp only []
    rw [if_pos hlt]
  · intro b hb hlt
    unfold listener
    rw [hb]
    dsimp only []
    rw [if_neg hlt]
    refine ⟨_, rfl, rfl, rfl, ?_⟩
    have hb2 : st.bridges.find? (fun (x : Bridge) => x.name == station) =
        some b := hb
    have hpfb0 := @List.find?_some _ _ _ _ hb2
    have hpfb : ((update_depot_bridge b b.system market ts).name == station)
        = true := hpfb0
    have hfb : bridgesFind (updateFirst (fun (x : Bridge) => x.name == station)
        (fun x => update_depot_bridge x x.system market ts) st.bridges)
        station = some (update_depot_bridge b b.system market ts) :=
      find?_updateFirst_self (fun (x : Bridge) => x.name == station)
        (fun x => update_depot_bridge x x.system market ts)
        st.bridges b hb2 hpfb
    exact hfb
  · intro c sd hbn hc hlt hsd hcoh2
    unfold listener
    rw [hbn]
    dsimp only []
    rw [hc]
    dsimp only []
    rw [if_neg hlt, hsd]
    dsimp only []
    unfold update_depot_carrier
    obtain ⟨⟨c1, tasks1⟩, hout⟩ := try_restock_total
      ({ c with market := market, system := sd, last_update := ts })
      st.restocks now msgId hcoh2
    rw [hout]
    dsimp only []
    have hpres := try_restock_preserves _ _ _ _ _ _ hout
    have hn : c1.name = c.name := hpres.1
    have hmatch : carrierMatches station c1 = true := by
      have hmc : carrierMatches station c = true := List.find?_some hc
      unfold carrierMatches at hmc ⊢
      simp only [Bool.or_eq_true] at hmc ⊢
      rcases hmc with h1 | h1
      · exact Or.inl h1
      · refine Or.inr ?_
        rw [hn]
        exact h1
    refine ⟨_, c1, rfl, rfl, ?_, hpres.2.1, hpres.2.2.2.1, hpres.2.2.1, ?_⟩
    · exact find?_updateFirst_self (carrierMatches station)
        (fun _ => c1) st.carriers c hc hmatch
    · intro hname
      have hsys : c1.system = sd := hpres.2.2.1
      by_cases hnm : c.system.name = system
      · rw [if_neg (by simp [hnm])] at hsd
        injection hsd with hsd2
        rw [hsys, ← hsd2, hnm]
      · rw [if_pos hnm] at hsd
        rw [hsys, hname system sd hsd]

/-- Witness for C1: the bridge replacement applied to a fresh broadcast for
`bridgeHub`. -/
theorem claim_C1_amended_witness :
    ∃ st', listener stBridge edsmName "HUB" "Beta" [tritGood 5 100] 200 0 0 =
        some st'
      ∧ st'.carriers = stBridge.carriers ∧ st'.restocks = stBridge.restocks
      ∧ bridgesFind st'.bridges "HUB" =
          some { bridgeHub with market := [tritGood 5 100], last_update := 200 } :=
  (claim_C1_amended stBridge edsmName "HUB" "Beta" [tritGood 5 100] 200 0
    0).2.2.1 bridgeHub (by decide) (by decide)

end Stellar
